import Mathlib

/-!
Verification development for the `ecu_modbus` register access and decoding
engine (`src/ecu_modbus/apsystems_modbus.py`).

The Python source is shallowly embedded below: pure helpers become Lean
functions, the pymodbus `BinaryPayloadDecoder` becomes an explicit
byte-buffer-with-pointer state, the Modbus client becomes an abstract
`Transport` record over a caller-chosen state type, and raised/caught Python
exceptions become `Except PyError`.  Machine integers are `Nat`/`Int` with
explicit bounds where overflow matters.  All definitions are executable.
-/

deriving instance DecidableEq for Except

/-- The `RegisterType` enum from the source (`INPUT = 1`, `HOLDING = 2`). -/
inductive RegisterType
  | INPUT
  | HOLDING
deriving DecidableEq, Repr

/-- The `RegisterDataType` enum from the source.  In the Python enum, `SCALE = 4`
is declared after `INT16 = 4` and is therefore an *alias* of `INT16`:
`RegisterDataType.SCALE is RegisterDataType.INT16` and its `.name` is
`"INT16"`.  Hence there is no separate `SCALE` constructor here; catalog
entries written with `SCALE` use `INT16`. -/
inductive RegisterDataType
  | UINT16
  | UINT32
  | UINT64
  | INT16
  | ACC32
  | FLOAT32
  | SEFLOAT
  | STRING
deriving DecidableEq, Repr

/-- The numeric entries of the source's `SUNSPEC_NOT_IMPLEMENTED` dict,
keyed by `dtype.name` (so the `INT16` entry also serves `SCALE`, its enum
alias).  The `STRING` entry of the dict is the empty string `""`; it is
handled directly in `isSentinel` below, and the value returned here for
`STRING` is never consulted. -/
def SUNSPEC_NOT_IMPLEMENTED : RegisterDataType → Nat
  | .UINT16 => 0xFFFF
  | .UINT32 => 0xFFFFFFFF
  | .UINT64 => 0xFFFFFFFFFFFFFFFF
  | .INT16 => 0x8000
  | .ACC32 => 0x00000000
  | .FLOAT32 => 0x7FC00000
  | .SEFLOAT => 0xFFFFFFFF
  | .STRING => 0

/-- The `METER_REGISTER_OFFSETS` table from the source. -/
def METER_REGISTER_OFFSETS : List Nat := [0x000, 0x0AE, 0x15C]

/-- Python exceptions that the embedded code raises or catches. -/
inductive PyError
  | attributeError
  | notImplementedError
  | keyError (k : String)
  | structError
  | valueError
  | overflowError
deriving DecidableEq, Repr

/-- A Python value as produced by the decode paths: an `int`, a `str`, a
`bool`, or a `float`.  A float is represented by the 32 raw IEEE-754 bits it
was decoded from (the source only ever obtains floats from
`decode_32bit_float`, and the repository's register catalog never pairs a
float data type with a `str` target, so no shortest-repr modelling of floats
is needed by any claim). -/
inductive PyValue
  | int (n : Int)
  | str (s : String)
  | bool (b : Bool)
  | float (bits : Nat)
deriving DecidableEq, Repr

/-- Sign bit of a 32-bit IEEE-754 pattern. -/
def f32Sign (bits : Nat) : Nat := bits / 2 ^ 31 % 2

/-- Exponent field of a 32-bit IEEE-754 pattern. -/
def f32Exp (bits : Nat) : Nat := bits / 2 ^ 23 % 2 ^ 8

/-- Mantissa field of a 32-bit IEEE-754 pattern. -/
def f32Man (bits : Nat) : Nat := bits % 2 ^ 23

/-- Whether a 32-bit IEEE-754 pattern denotes a NaN. -/
def f32IsNan (bits : Nat) : Bool := f32Exp bits == 255 && f32Man bits != 0

/-- Whether a 32-bit IEEE-754 pattern denotes an infinity. -/
def f32IsInf (bits : Nat) : Bool := f32Exp bits == 255 && f32Man bits == 0

/-- Exact Python `float == int` comparison for a float given by its 32
IEEE-754 bits: NaN and infinities compare unequal to every integer; a finite
value compares by exact real value (no rounding).  The finite value is
`(-1)^s * m' * 2^(e - 150)` with `m' = 2^23 + m` for normal numbers and
`m' = m`, `e = 1` for subnormals. -/
def f32EqInt (bits : Nat) (n : Int) : Bool :=
  if f32Exp bits == 255 then false
  else
    let e := if f32Exp bits == 0 then 1 else f32Exp bits
    let m : Int := if f32Exp bits == 0 then f32Man bits else 2 ^ 23 + f32Man bits
    let signed : Int := if f32Sign bits == 1 then -m else m
    -- value = signed * 2^(e-150); compare with n exactly over the integers
    if e ≥ 150 then signed * 2 ^ (e - 150) == n
    else signed == n * 2 ^ (150 - e)

/-- Python `int()` of a float given by its bits: truncation toward zero for
finite values, `ValueError`/`OverflowError` for NaN and infinities (modelled
as a single error outcome). -/
def f32ToInt (bits : Nat) : Except PyError Int :=
  if f32Exp bits == 255 then .error .valueError
  else
    let e := if f32Exp bits == 0 then 1 else f32Exp bits
    let m : Nat := if f32Exp bits == 0 then f32Man bits else 2 ^ 23 + f32Man bits
    let mag : Nat := if e ≥ 150 then m * 2 ^ (e - 150) else m / 2 ^ (150 - e)
    .ok (if f32Sign bits == 1 then -(mag : Int) else mag)

/-- Python `float == float` for two values given by their 32-bit patterns:
NaN is unequal to everything; `+0.0 == -0.0`; otherwise two float32 values
are equal exactly when their bit patterns coincide. -/
def f32EqF32 (a b : Nat) : Bool :=
  if f32IsNan a || f32IsNan b then false
  else if a % 2 ^ 31 == 0 && b % 2 ^ 31 == 0 then true
  else a == b

/-- Python `str()` of a float.  The special values are rendered with their
Python spellings; finite values get a definite placeholder rendering (the
shortest-round-trip decimal repr is not modelled: no catalog entry and no
claim pairs a float data type with the `str` target). -/
def pyFloatRepr (bits : Nat) : String :=
  if f32IsNan bits then "nan"
  else if bits = 0x7F800000 then "inf"
  else if bits = 0xFF800000 then "-inf"
  else "float:" ++ toString bits

/-- Python `==` on the values the engine produces.  `bool` is an `int`
subclass (`False == 0`, `True == 1`); numeric kinds compare by value across
kinds; `str` never equals a numeric value. -/
def pyEq : PyValue → PyValue → Bool
  | .int a, .int b => a == b
  | .int a, .bool b => a == (if b then 1 else 0)
  | .bool a, .int b => (if a then (1 : Int) else 0) == b
  | .bool a, .bool b => a == b
  | .str a, .str b => a == b
  | .float a, .float b => f32EqF32 a b
  | .float a, .int b => f32EqInt a b
  | .int a, .float b => f32EqInt b a
  | .float a, .bool b => f32EqInt a (if b then 1 else 0)
  | .bool a, .float b => f32EqInt b (if a then 1 else 0)
  | .str _, _ => false
  | _, .str _ => false

/-- Python truthiness of the values the engine produces. -/
def pyTruthy : PyValue → Bool
  | .int n => n != 0
  | .str s => s != ""
  | .bool b => b
  | .float bits => bits % 2 ^ 31 != 0

/-- Whether a byte is a UTF-8 continuation byte (`0x80..0xBF`). -/
def utf8Cont (b : Nat) : Bool := 0x80 ≤ b && b ≤ 0xBF

/-- Allowed second byte after a three-byte lead: the standard table that
excludes overlong encodings (`E0`) and surrogates (`ED`). -/
def utf8Second3 (b0 b1 : Nat) : Bool :=
  if b0 == 0xE0 then 0xA0 ≤ b1 && b1 ≤ 0xBF
  else if b0 == 0xED then 0x80 ≤ b1 && b1 ≤ 0x9F
  else utf8Cont b1

/-- Allowed second byte after a four-byte lead: excludes overlongs (`F0`)
and code points beyond `U+10FFFF` (`F4`). -/
def utf8Second4 (b0 b1 : Nat) : Bool :=
  if b0 == 0xF0 then 0x90 ≤ b1 && b1 ≤ 0xBF
  else if b0 == 0xF4 then 0x80 ≤ b1 && b1 ≤ 0x8F
  else utf8Cont b1

/-- One step of UTF-8 decoding: given the remaining bytes, returns the
decoded character (or `none` for an invalid byte, which is dropped) and the
number of bytes consumed (at least 1). -/
def utf8Step : List Nat → Option Char × Nat
  | [] => (none, 1)
  | b :: rest =>
    if b ≤ 0x7F then (some (Char.ofNat b), 1)
    else if 0xC2 ≤ b && b ≤ 0xDF then
      match rest with
      | b1 :: _ =>
        if utf8Cont b1 then (some (Char.ofNat ((b - 0xC0) * 0x40 + (b1 - 0x80))), 2)
        else (none, 1)
      | [] => (none, 1)
    else if 0xE0 ≤ b && b ≤ 0xEF then
      match rest with
      | b1 :: b2 :: _ =>
        if utf8Second3 b b1 && utf8Cont b2 then
          (some (Char.ofNat ((b - 0xE0) * 0x1000 + (b1 - 0x80) * 0x40 + (b2 - 0x80))), 3)
        else (none, 1)
      | _ => (none, 1)
    else if 0xF0 ≤ b && b ≤ 0xF4 then
      match rest with
      | b1 :: b2 :: b3 :: _ =>
        if utf8Second4 b b1 && utf8Cont b2 && utf8Cont b3 then
          (some
              (Char.ofNat
                ((b - 0xF0) * 0x40000 + (b1 - 0x80) * 0x1000 + (b2 - 0x80) * 0x40 + (b3 - 0x80))),
            4)
        else (none, 1)
      | _ => (none, 1)
    else (none, 1)

/-- Python `bytes.decode("utf-8", errors="ignore")`: well-formed sequences
become characters, invalid bytes are dropped.  (Python's maximal-subpart
rule can drop a multi-byte invalid prefix in one step where this model drops
one byte at a time and then rejects the orphaned continuation bytes
individually; the decoded characters agree on every input the repository's
decode pipeline and the claims exercise.) -/
def utf8DecodeIgnoreFuel : Nat → List Nat → List Char
  | 0, _ => []
  | _, [] => []
  | fuel + 1, b :: rest =>
    let (c?, k) := utf8Step (b :: rest)
    (match c? with
      | some c => [c]
      | none => []) ++ utf8DecodeIgnoreFuel fuel ((b :: rest).drop (max k 1))

/-- The decode of a byte list, with enough fuel to finish (every step
consumes at least one byte, so `bs.length` steps always suffice). -/
def utf8DecodeIgnore (bs : List Nat) : List Char := utf8DecodeIgnoreFuel bs.length bs

/-- UTF-8 bytes of one character (standard four-case encoder). -/
def charUtf8 (c : Char) : List Nat :=
  let n := c.toNat
  if n ≤ 0x7F then [n]
  else if n ≤ 0x7FF then [0xC0 + n / 0x40, 0x80 + n % 0x40]
  else if n ≤ 0xFFFF then [0xE0 + n / 0x1000, 0x80 + n / 0x40 % 0x40, 0x80 + n % 0x40]
  else [0xF0 + n / 0x40000, 0x80 + n / 0x1000 % 0x40, 0x80 + n / 0x40 % 0x40, 0x80 + n % 0x40]

/-- Python `str.encode()` (UTF-8 bytes of a string). -/
def strUtf8 (s : String) : List Nat := s.toList.foldr (fun c acc => charUtf8 c ++ acc) []

/-- Characters stripped by Python `str.rstrip()` with no argument, for the
ASCII/C0 range (Python also strips other Unicode whitespace, which cannot
reach the pipeline: registers are decoded bytewise and non-ASCII whitespace
never survives the claims' inputs). -/
def pyIsSpace (c : Char) : Bool :=
  c == ' ' || c == '\t' || c == '\n' || c == '\r' || c == '\x0b' || c == '\x0c' ||
    c == '\x1c' || c == '\x1d' || c == '\x1e' || c == '\x1f' || c == '\x85'

/-- Python `str.replace("\x00", "")`: removes every NUL character. -/
def pyStripNul (cs : List Char) : List Char := cs.filter (fun c => c != '\x00')

/-- Python `str.rstrip()`: drop trailing whitespace. -/
def pyRstrip (cs : List Char) : List Char := (cs.reverse.dropWhile pyIsSpace).reverse

/-- Python `int(str)`: optional surrounding ASCII whitespace, an optional
sign, then decimal digits; anything else is a `ValueError`.  (Python also
accepts underscore digit separators, which no caller of the engine produces;
the repository's catalog never pairs the `int` target with the `STRING` data
type, so this function is unreachable from the catalog.) -/
def pyIntOfString (s : String) : Except PyError Int :=
  let cs := (s.toList.dropWhile pyIsSpace).reverse.dropWhile pyIsSpace |>.reverse
  let (neg, digits) :=
    match cs with
    | '-' :: rest => (true, rest)
    | '+' :: rest => (false, rest)
    | rest => (false, rest)
  if digits ≠ [] ∧ digits.all (·.isDigit) then
    let n : Nat := digits.foldl (fun acc c => acc * 10 + (c.toNat - 48)) 0
    .ok (if neg then -(n : Int) else n)
  else .error .valueError

/-- The pymodbus `BinaryPayloadDecoder` state: the byte payload built from
the response registers and a byte pointer. -/
structure Decoder where
  payload : List Nat
  ptr : Nat
deriving DecidableEq, Repr

/-- The constructor `BinaryPayloadDecoder.fromRegisters(registers, byteorder=BIG,
wordorder=BIG)`: each 16-bit register contributes its two bytes
big-endian, registers in order (the repository fixes both orders to
big-endian). -/
def fromRegisters (regs : List Nat) : Decoder :=
  ⟨regs.foldr (fun r acc => r / 256 :: r % 256 :: acc) [], 0⟩

/-- The `n` bytes at the decoder's pointer (short if the payload ends). -/
def Decoder.readBytes (d : Decoder) (n : Nat) : List Nat :=
  (d.payload.drop d.ptr).take n

/-- Advance the byte pointer (`skip_bytes` and every decode do this). -/
def Decoder.advance (d : Decoder) (n : Nat) : Decoder :=
  { d with ptr := d.ptr + n }

/-- Big-endian byte recomposition. -/
def bytesBE (bs : List Nat) : Nat := bs.foldl (fun acc b => acc * 256 + b) 0

/-- An unsigned big-endian fixed-width decode (`decode_16bit_uint` etc.):
`struct.unpack` of fewer bytes than the format needs raises
`struct.error`. -/
def Decoder.decodeUint (d : Decoder) (nbytes : Nat) : Except PyError (Nat × Decoder) :=
  let bs := d.readBytes nbytes
  if bs.length = nbytes then .ok (bytesBE bs, d.advance nbytes) else .error .structError

/-- Two's-complement reading of a 16-bit pattern (`decode_16bit_int`). -/
def toSigned16 (u : Nat) : Int := if u ≥ 0x8000 then (u : Int) - 0x10000 else u

/-- Python `decode_string(size)`: returns the next `size` payload bytes (a short
slice near the end is not an error in Python) and advances the pointer. -/
def Decoder.decodeString (d : Decoder) (size : Nat) : List Nat × Decoder :=
  (d.readBytes size, d.advance size)

/-- The intermediate `decoded` value inside `_decode_value`, before the
target type `vtype` is applied: an `int` from the integer decodes, a `str`
from the string decode, or a `float` (by its raw 32 bits) from
`decode_32bit_float`. -/
inductive Decoded
  | int (n : Int)
  | str (s : String)
  | float (bits : Nat)
deriving DecidableEq, Repr

/-- The `target type` column of the register catalog.  In the source it is a
Python callable; the repository only ever uses the builtins `int` and
`str`. -/
inductive VType
  | vint
  | vstr
deriving DecidableEq, Repr

/-- The absent value `vtype(False)`: Python `int(False) = 0` and `str(False) = "False"`. -/
def vtypeOfFalse : VType → PyValue
  | .vint => .int 0
  | .vstr => .str "False"

/-- The call `vtype(decoded)`: applying the target-type builtin to the decoded
value.  `int` of a string parses it (or raises `ValueError`); `int` of a
float truncates (or raises on NaN/infinity); `str` of an int is its decimal
rendering. -/
def vtypeApply : VType → Decoded → Except PyError PyValue
  | .vint, .int n => .ok (.int n)
  | .vint, .str s => (pyIntOfString s).map .int
  | .vint, .float bits => (f32ToInt bits).map .int
  | .vstr, .int n => .ok (.str (toString n))
  | .vstr, .str s => .ok (.str s)
  | .vstr, .float bits => .ok (.str (pyFloatRepr bits))

/-- The source's sentinel test `decoded == SUNSPEC_NOT_IMPLEMENTED[dtype.name]`,
with Python `==` semantics: `int` entries compare by value against an `int`
decode, the `STRING` entry `""` compares against a `str` decode, and a
`float` decode compares by exact value against the `int` entry (so a NaN
pattern never equals it).  Cross-kind `str`/`int` comparisons are `False`
in Python (those pairings cannot arise from the decode branches). -/
def isSentinel (decoded : Decoded) (dtype : RegisterDataType) : Bool :=
  match decoded with
  | .int n =>
    match dtype with
    | .STRING => false
    | _ => n == (SUNSPEC_NOT_IMPLEMENTED dtype : Int)
  | .str s =>
    match dtype with
    | .STRING => s == ""
    | _ => false
  | .float bits => f32EqInt bits (SUNSPEC_NOT_IMPLEMENTED dtype)

/-- The method `APsystems._decode_value(data, length, dtype, vtype)`.

`data` is the `BinaryPayloadDecoder` or `None` (the retry-exhausted result
of `_read_holding_registers`); calling any decode method on `None` raises
`AttributeError`, which this function does not catch.  On success the
(mutated) decoder is returned alongside the value, since `_read_all` keeps
decoding from the same decoder.  `UINT32` and `ACC32` share the 32-bit
unsigned branch; `SCALE` is the same enum member as `INT16` (see
`RegisterDataType`).  The `STRING` branch consumes `length * 2` bytes, then
drops undecodable bytes, removes NUL characters and strips trailing
whitespace.  An unknown data type would raise `NotImplementedError`; the
Lean enum is closed, so that branch has no counterpart here. -/
def decode_value (data : Option Decoder) (length : Nat) (dtype : RegisterDataType)
    (vtype : VType) : Except PyError (PyValue × Decoder) := do
  match data with
  | none => .error .attributeError
  | some d =>
    let (decoded, d') ←
      (match dtype with
        | .UINT16 => (d.decodeUint 2).map fun (n, d') => (Decoded.int n, d')
        | .UINT32 | .ACC32 => (d.decodeUint 4).map fun (n, d') => (Decoded.int n, d')
        | .UINT64 => (d.decodeUint 8).map fun (n, d') => (Decoded.int n, d')
        | .INT16 => (d.decodeUint 2).map fun (n, d') => (Decoded.int (toSigned16 n), d')
        | .FLOAT32 | .SEFLOAT => (d.decodeUint 4).map fun (n, d') => (Decoded.float n, d')
        | .STRING =>
          let (bs, d') := d.decodeString (length * 2)
          .ok (Decoded.str ⟨pyRstrip (pyStripNul (utf8DecodeIgnore bs))⟩, d'))
    if isSentinel decoded dtype then
      return (vtypeOfFalse vtype, d')
    else
      let v ← vtypeApply vtype decoded
      return (v, d')

/-- Big-endian byte rendering of an unsigned value at a given byte width
(`struct.pack` of `>H`, `>I`, `>Q`). -/
def natBytesBE : Nat → Nat → List Nat
  | 0, _ => []
  | w + 1, n => n / 256 ^ w % 256 :: natBytesBE w n

/-- The builder step `BinaryPayloadBuilder.to_registers()`: pack the payload bytes into
16-bit registers, two bytes per register, big-endian; an odd trailing byte
is padded with `0x00`. -/
def bytesToRegs : List Nat → List Nat
  | [] => []
  | [b] => [b * 256]
  | b0 :: b1 :: rest => (b0 * 256 + b1) :: bytesToRegs rest

/-- How `struct.pack` sees a value for an integer format: `bool` is an
`int` subclass; a `str` or `float` argument to an integer format raises
`struct.error`. -/
def pyAsInt : PyValue → Except PyError Int
  | .int n => .ok n
  | .bool b => .ok (if b then 1 else 0)
  | .str _ => .error .structError
  | .float _ => .error .structError

/-- Round-to-nearest-even conversion of a nonnegative integer to float32
bits (`struct.pack(">f", n)`); magnitudes at or above `2^128` overflow. -/
def f32OfNat (m : Nat) : Except PyError Nat :=
  if m = 0 then .ok 0
  else
    let e := Nat.log2 m
    if e ≤ 23 then .ok ((e + 127) * 2 ^ 23 + (m * 2 ^ (23 - e) - 2 ^ 23))
    else
      let sh := e - 23
      let q := m / 2 ^ sh
      let r := m % 2 ^ sh
      let half := 2 ^ (sh - 1)
      let q' := if r > half ∨ (r = half ∧ q % 2 = 1) then q + 1 else q
      let qe := if q' = 2 ^ 24 then (2 ^ 23, e + 1) else (q', e)
      if qe.2 + 127 ≥ 255 then .error .overflowError
      else .ok ((qe.2 + 127) * 2 ^ 23 + (qe.1 - 2 ^ 23))

/-- Python `struct.pack(">f", x)` for the values a caller can pass: an `int` (or
`bool`) is rounded to the nearest float32; a decoded float keeps its bits;
a `str` raises `struct.error`. -/
def f32Encode : PyValue → Except PyError Nat
  | .int n => if n < 0 then (f32OfNat (-n).toNat).map (2 ^ 31 + ·) else f32OfNat n.toNat
  | .bool b => f32OfNat (if b then 1 else 0)
  | .float bits => .ok bits
  | .str _ => .error .structError

/-- The method `APsystems._encode_value(data, dtype)`: build the raw register words
for a value, big-endian byte and word order.  Integer formats have
`struct.pack` range checks; `ACC32` falls to the `else` branch and raises
`NotImplementedError` (which `_encode_value` re-raises). -/
def encode_value (data : PyValue) (dtype : RegisterDataType) : Except PyError (List Nat) := do
  match dtype with
  | .UINT16 => do
    let n ← pyAsInt data
    if 0 ≤ n ∧ n < 2 ^ 16 then return bytesToRegs (natBytesBE 2 n.toNat)
    else .error .structError
  | .UINT32 => do
    let n ← pyAsInt data
    if 0 ≤ n ∧ n < 2 ^ 32 then return bytesToRegs (natBytesBE 4 n.toNat)
    else .error .structError
  | .UINT64 => do
    let n ← pyAsInt data
    if 0 ≤ n ∧ n < 2 ^ 64 then return bytesToRegs (natBytesBE 8 n.toNat)
    else .error .structError
  | .INT16 => do
    let n ← pyAsInt data
    if -(2 ^ 15) ≤ n ∧ n < 2 ^ 15 then return bytesToRegs (natBytesBE 2 (n % 2 ^ 16).toNat)
    else .error .structError
  | .FLOAT32 | .SEFLOAT => do
    let bits ← f32Encode data
    return bytesToRegs (natBytesBE 4 bits)
  | .STRING =>
    match data with
    | .str s => return bytesToRegs (strUtf8 s)
    | _ => .error .attributeError
  | .ACC32 => .error .notImplementedError

/-- A register catalog entry: the source's 8-tuple
`(address, length, register, type, target type, description, unit, batch)`.
The sixth and seventh slots (`label` and the unit string / lookup-table
metadata) are presentation data the engine never reads; the label is kept,
the unit metadata (sometimes a dict or list in the source) is omitted. -/
structure FieldDesc where
  address : Nat
  length : Nat
  rtype : RegisterType
  dtype : RegisterDataType
  vtype : VType
  label : String
  batch : Nat
deriving DecidableEq, Repr

/-- What `client.read_holding_registers` hands back, as far as the engine
inspects it: whether it `isinstance`-checks as a `ReadHoldingRegistersResponse`,
and its register list. -/
structure ReadResponse where
  isResponse : Bool
  registers : List Nat
deriving DecidableEq, Repr

/-- The pymodbus client as the engine consumes it, over a caller-chosen
state type `σ` (`is_socket_open`/`connect` for connectivity, one
holding-register range read, one register-range write returning an
acknowledgement of type `ω`). -/
structure Transport (σ ω : Type) where
  is_socket_open : σ → Bool
  connect : σ → σ
  read_holding : σ → Nat → Nat → Nat → ReadResponse × σ
  write_registers : σ → Nat → List Nat → Nat → ω × σ

/-- The method `APsystems._read_holding_registers(address, length)`: up to `retries`
loop iterations; a disconnected iteration reconnects (the `time.sleep(0.1)`
pause has no observable effect in this model) and `continue`s, consuming an
iteration; a non-response or a register count mismatch also consumes an
iteration; a well-formed response becomes a decoder.  Exhaustion returns
`none`. -/
def read_holding_registers (T : Transport σ ω) (unit : Nat) (retries : Nat)
    (address length : Nat) (s : σ) : Option Decoder × σ :=
  match retries with
  | 0 => (none, s)
  | n + 1 =>
    if ¬T.is_socket_open s then
      read_holding_registers T unit n address length (T.connect s)
    else
      let (result, s') := T.read_holding s address length unit
      if ¬result.isResponse then read_holding_registers T unit n address length s'
      else if result.registers.length ≠ length then
        read_holding_registers T unit n address length s'
      else (some (fromRegisters result.registers), s')

/-- The class `APsystems` defines no `_read_input_registers` method, so the attribute
lookup `self._read_input_registers` raises `AttributeError` before any
transport activity. -/
def read_input_registers : Except PyError (Option Decoder) := .error .attributeError

/-- The method `APsystems._read(value)`: the single-field read.  `INPUT` descriptors
hit the missing `_read_input_registers` attribute; the raised
`AttributeError` is caught (`except AttributeError: return False`), as is
the `AttributeError` from decoding a `None` buffer after retry exhaustion.
Other exceptions from the decode (e.g. `struct.error`) propagate.  The
unreachable `else: raise NotImplementedError(rtype)` branch has no
counterpart because `RegisterType` is closed. -/
def read_field (T : Transport σ ω) (unit retries : Nat) (v : FieldDesc) (s : σ) :
    Except PyError PyValue × σ :=
  match v.rtype with
  | .INPUT =>
    (match read_input_registers with
      | .ok d =>
        match decode_value d v.length v.dtype v.vtype with
        | .ok (val, _) => .ok val
        | .error .attributeError => .ok (.bool false)
        | .error e => .error e
      | .error .attributeError => .ok (.bool false)
      | .error e => .error e,
      s)
  | .HOLDING =>
    let (d, s') := read_holding_registers T unit retries v.address v.length s
    (match decode_value d v.length v.dtype v.vtype with
      | .ok (val, _) => .ok val
      | .error .attributeError => .ok (.bool false)
      | .error e => .error e,
      s')

/-- The `addr_min`/`addr_max` fold at the top of `APsystems._read_all`:
both trackers start as `False` (here `none`; Python's `0 is False` is
`False`, so an address `0` never re-triggers the initialisation), are
seeded by the first descriptor, and then track the minimum address and the
maximum of `address + word_length`. -/
def spanStep (acc : Option Nat × Option Nat) (kv : String × FieldDesc) :
    Option Nat × Option Nat :=
  let v_addr := kv.2.address
  let v_length := kv.2.length
  let amin := match acc.1 with
    | none => v_addr
    | some m => if v_addr < m then v_addr else m
  let amax := match acc.2 with
    | none => v_addr + v_length
    | some m => if v_addr + v_length > m then v_addr + v_length else m
  (some amin, some amax)

/-- The whole `addr_min`/`addr_max` loop. -/
def spanFold (values : List (String × FieldDesc)) : Option Nat × Option Nat :=
  values.foldl spanStep (none, none)

/-- The per-field decode loop of `APsystems._read_all`: if a field's
address is ahead of the running cursor `offset`, skip
`(address - offset)` registers (`skip_bytes` takes bytes, hence `* 2`);
decode the field from the shared decoder; advance the cursor by the
field's catalog `word_length` (the loop-local `length`).  A decode
exception aborts the whole loop (only `NotImplementedError` is caught —
and re-raised — by `_read_all`). -/
def decode_loop (values : List (String × FieldDesc)) (offset : Nat) (d : Decoder) :
    Except PyError (List (String × PyValue)) :=
  match values with
  | [] => .ok []
  | (k, v) :: rest =>
    let od :=
      if v.address > offset then (v.address - offset + offset, d.advance ((v.address - offset) * 2))
      else (offset, d)
    match decode_value (some od.2) v.length v.dtype v.vtype with
    | .error e => .error e
    | .ok (val, d') =>
      match decode_loop rest (od.1 + v.length) d' with
      | .error e => .error e
      | .ok results => .ok ((k, val) :: results)

/-- The method `APsystems._read_all(values, rtype)`: compute the batch span, issue one
range read, and decode each member field from the shared buffer.  For
`INPUT` the missing `_read_input_registers` attribute raises
`AttributeError`, which `_read_all` does not catch.  A `None` buffer
(retry exhaustion) returns the empty result (`if not data: return
results`).  For empty `values` the Python span trackers are still `False`,
which behaves as `0` in the arithmetic (`False - False == 0`). -/
def read_all_batch (T : Transport σ ω) (unit retries : Nat)
    (values : List (String × FieldDesc)) (rtype : RegisterType) (s : σ) :
    Except PyError (List (String × PyValue)) × σ :=
  let span := spanFold values
  let offset := span.1.getD 0
  let length := span.2.getD 0 - offset
  match rtype with
  | .INPUT =>
    (match read_input_registers with
      | .error e => .error e
      | .ok none => .ok []
      | .ok (some d) => decode_loop values offset d,
      s)
  | .HOLDING =>
    let (data, s') := read_holding_registers T unit retries offset length s
    (match data with
      | none => .ok []
      | some d => decode_loop values offset d,
      s')

/-- Python `dict.update`: keys already present keep their position and take
the new value; new keys are appended in order. -/
def dictUpdate (old new : List (String × PyValue)) : List (String × PyValue) :=
  old.map (fun kv =>
      match new.find? (·.1 == kv.1) with
      | some kv' => kv'
      | none => kv) ++
    new.filter (fun kv => (old.find? (·.1 == kv.1)).isNone)

/-- A logical device as the facade sees it: the shared transport, the retry
budget, the Modbus unit address and the register catalog (an ordered
name-to-descriptor mapping). -/
structure Device (σ ω : Type) where
  transport : Transport σ ω
  retries : Nat
  unit : Nat
  registers : List (String × FieldDesc)

/-- Python `key in dict` / `dict[key]` on the ordered catalog. -/
def lookupReg (regs : List (String × FieldDesc)) (key : String) : Option FieldDesc :=
  (regs.find? (·.1 == key)).map (·.2)

/-- The method `APsystems.read(key)`: raise `KeyError` for an unknown name (before any
transport activity — the state is returned untouched), else a single-field
read wrapped as a one-entry mapping. -/
def Device.read (dev : Device σ ω) (key : String) (s : σ) :
    Except PyError (List (String × PyValue)) × σ :=
  match lookupReg dev.registers key with
  | none => (.error (.keyError key), s)
  | some v =>
    let (r, s') := read_field dev.transport dev.unit dev.retries v s
    (r.map fun val => [(key, val)], s')

/-- The method `APsystems._write(value, data)`: only `HOLDING` descriptors are
writable; anything else raises `NotImplementedError`.  On the `HOLDING`
path the value is encoded and handed to the transport write, whose
acknowledgement is returned as-is. -/
def write_field (T : Transport σ ω) (unit : Nat) (v : FieldDesc) (data : PyValue) (s : σ) :
    Except PyError ω × σ :=
  match v.rtype with
  | .HOLDING =>
    (match encode_value data v.dtype with
      | .error e => (.error e, s)
      | .ok regs =>
        let (ack, s') := T.write_registers s v.address regs unit
        (.ok ack, s'))
  | .INPUT => (.error .notImplementedError, s)

/-- The method `APsystems.write(key, data)`: raise `KeyError` for an unknown name
(before any transport activity), else `_write`. -/
def Device.write (dev : Device σ ω) (key : String) (data : PyValue) (s : σ) :
    Except PyError ω × σ :=
  match lookupReg dev.registers key with
  | none => (.error (.keyError key), s)
  | some v => write_field dev.transport dev.unit v data s

/-- The `for batch in range(1, len(registers))` loop of
`APsystems.read_all`: walk the candidate batch ids in order, `break` at the
first id with no member descriptors, otherwise merge the batch's results
into the accumulator.  An exception from `_read_all` propagates. -/
def read_all_loop (T : Transport σ ω) (unit retries : Nat)
    (regs : List (String × FieldDesc)) (rtype : RegisterType) (ids : List Nat)
    (acc : List (String × PyValue)) (s : σ) :
    Except PyError (List (String × PyValue)) × σ :=
  match ids with
  | [] => (.ok acc, s)
  | b :: bs =>
    let register_batch := regs.filter (·.2.batch == b)
    if register_batch.isEmpty then (.ok acc, s)
    else
      match read_all_batch T unit retries register_batch rtype s with
      | (.error e, s') => (.error e, s')
      | (.ok res, s') => read_all_loop T unit retries regs rtype bs (dictUpdate acc res) s'

/-- The method `APsystems.read_all(rtype=HOLDING)`: filter the catalog to the
requested register class, then run the batch loop over the candidate ids
`range(1, len(registers))` — note the upper bound is the *count of
filtered descriptors*, not the number of batches. -/
def Device.read_all (dev : Device σ ω) (rtype : RegisterType) (s : σ) :
    Except PyError (List (String × PyValue)) × σ :=
  let registers := dev.registers.filter (·.2.rtype == rtype)
  read_all_loop dev.transport dev.unit dev.retries registers rtype
    (List.range' 1 (registers.length - 1)) [] s

/-- The `Inverter.registers` catalog (the commented-out rows of the source
are likewise absent here; `SCALE` rows use `INT16`, its enum alias; the
unit-string / lookup-table metadata column is dropped, see `FieldDesc`). -/
def Inverter.registers : List (String × FieldDesc) := [
  ("c_did", ⟨0x9c42, 1, .HOLDING, .UINT16, .vint, "SunSpec DID", 1⟩),
  ("c_length", ⟨0x9c43, 1, .HOLDING, .UINT16, .vint, "SunSpec Length", 1⟩),
  ("c_manufacturer", ⟨0x9c44, 16, .HOLDING, .STRING, .vstr, "Manufacturer", 1⟩),
  ("c_model", ⟨0x9c54, 16, .HOLDING, .STRING, .vstr, "Model", 1⟩),
  ("c_version", ⟨0x9c6c, 8, .HOLDING, .STRING, .vstr, "Version", 1⟩),
  ("c_serialnumber", ⟨0x9c74, 16, .HOLDING, .STRING, .vstr, "Serial", 1⟩),
  ("c_deviceaddress", ⟨0x9c84, 1, .HOLDING, .UINT16, .vint, "Modbus ID", 1⟩),
  ("c_sunspec_did", ⟨0x9c85, 1, .HOLDING, .UINT16, .vint, "SunSpec DID", 2⟩),
  ("c_sunspec_length", ⟨0x9c86, 1, .HOLDING, .UINT16, .vint, "Length", 2⟩),
  ("current", ⟨0x9c88, 1, .HOLDING, .UINT16, .vint, "Current", 2⟩),
  ("l1_current", ⟨0x9c89, 1, .HOLDING, .UINT16, .vint, "L1 Current", 2⟩),
  ("current_scale", ⟨0x9c8c, 1, .HOLDING, .INT16, .vint, "Current Scale Factor", 2⟩),
  ("l1n_voltage", ⟨0x9c90, 1, .HOLDING, .UINT16, .vint, "L1-N Voltage", 2⟩),
  ("voltage_scale", ⟨0x9c93, 1, .HOLDING, .INT16, .vint, "Voltage Scale Factor", 2⟩),
  ("power_ac", ⟨0x9c94, 1, .HOLDING, .INT16, .vint, "Power", 2⟩),
  ("power_ac_scale", ⟨0x9c95, 1, .HOLDING, .INT16, .vint, "Power Scale Factor", 2⟩),
  ("frequency", ⟨0x9c96, 1, .HOLDING, .UINT16, .vint, "Frequency", 2⟩),
  ("frequency_scale", ⟨0x9c97, 1, .HOLDING, .INT16, .vint, "Frequency Scale Factor", 2⟩),
  ("power_apparent", ⟨0x9c98, 1, .HOLDING, .INT16, .vint, "Power (Apparent)", 2⟩),
  ("power_apparent_scale", ⟨0x9c99, 1, .HOLDING, .INT16, .vint, "Power (Apparent) Scale Factor", 2⟩),
  ("power_reactive", ⟨0x9c9a, 1, .HOLDING, .INT16, .vint, "Power (Reactive)", 2⟩),
  ("power_reactive_scale", ⟨0x9c9b, 1, .HOLDING, .INT16, .vint, "Power (Reactive) Scale Factor", 2⟩),
  ("power_factor", ⟨0x9c9c, 1, .HOLDING, .INT16, .vint, "Power Factor", 2⟩),
  ("power_factor_scale", ⟨0x9c9d, 1, .HOLDING, .INT16, .vint, "Power Factor Scale Factor", 2⟩),
  ("energy_total", ⟨0x9c9e, 2, .HOLDING, .ACC32, .vint, "Total Energy", 2⟩),
  ("energy_total_scale", ⟨0x9ca0, 1, .HOLDING, .INT16, .vint, "Total Energy Scale Factor", 2⟩),
  ("temperature", ⟨0x9ca7, 1, .HOLDING, .INT16, .vint, "Temperature", 2⟩),
  ("temperature_scale", ⟨0x9cab, 1, .HOLDING, .INT16, .vint, "Temperature Scale Factor", 2⟩),
  ("status", ⟨0x9cac, 1, .HOLDING, .UINT16, .vint, "Status", 2⟩)]

/-- The list `Inverter.meter_dids`: the two device-id probe descriptors (the third
is commented out in the source). -/
def Inverter.meter_dids : List FieldDesc := [
  ⟨0x9cfc, 1, .HOLDING, .UINT16, .vint, "", 1⟩,
  ⟨0x9daa, 1, .HOLDING, .UINT16, .vint, "", 1⟩]

/-- A discovered `Meter`: it is an `APsystems` device built with
`parent=inverter`, so it shares the parent's client (transport), retry
budget and unit address; its own catalog starts empty, and its register
offset is `METER_REGISTER_OFFSETS[offset]` for the ordinal `offset` it was
created with. -/
structure MeterDev (σ ω : Type) where
  transport : Transport σ ω
  retries : Nat
  unit : Nat
  offset : Nat
  model : String
  registers : List (String × FieldDesc)

/-- The constructor call `Meter(offset=idx, parent=inv)`: the constructor run for probe ordinal
`idx` (0-based; the source indexes `METER_REGISTER_OFFSETS[offset]`, which
cannot fail since only ordinals 0 and 1 arise from the two probes). -/
def mkMeter (inv : Device σ ω) (idx : Nat) : MeterDev σ ω :=
  { transport := inv.transport
    retries := inv.retries
    unit := inv.unit
    offset := (METER_REGISTER_OFFSETS.drop idx).headD 0
    model := "Meter" ++ toString (idx + 1)
    registers := [] }

/-- The method `Inverter.meters()`: probe the two `meter_dids` registers with
single-field reads (the list comprehension evaluates them in order,
threading the shared connection), then build one labelled `Meter` per
truthy probe result, keyed `"Meter{idx + 1}"`. -/
def Inverter.meters (inv : Device σ ω) (s : σ) :
    Except PyError (List (String × MeterDev σ ω)) × σ :=
  match Inverter.meter_dids with
  | [d1, d2] =>
    let (r1, s1) := read_field inv.transport inv.unit inv.retries d1 s
    (match r1 with
      | .error e => (.error e, s1)
      | .ok v1 =>
        let (r2, s2) := read_field inv.transport inv.unit inv.retries d2 s1
        match r2 with
        | .error e => (.error e, s2)
        | .ok v2 =>
          ((.ok
              ((if pyTruthy v1 then [("Meter1", mkMeter inv 0)] else []) ++
                (if pyTruthy v2 then [("Meter2", mkMeter inv 1)] else []))),
            s2))
  | _ => (.error .notImplementedError, s)

/-- Modelled from the spec for C3's amended form: "`read_all` merges
results from multiple batches in ascending batch order" — the same
per-batch read and `dict.update` merge as `read_all_loop`, but over a given
list of batch ids with no early break. -/
def read_all_merge_spec (T : Transport σ ω) (unit retries : Nat)
    (regs : List (String × FieldDesc)) (rtype : RegisterType) (ids : List Nat)
    (acc : List (String × PyValue)) (s : σ) :
    Except PyError (List (String × PyValue)) × σ :=
  match ids with
  | [] => (.ok acc, s)
  | b :: bs =>
    match read_all_batch T unit retries (regs.filter (·.2.batch == b)) rtype s with
    | (.error e, s') => (.error e, s')
    | (.ok res, s') => read_all_merge_spec T unit retries regs rtype bs (dictUpdate acc res) s'

/-- The number of 16-bit registers a `_decode_value` call consumes: the
fixed width implied by the data type for scalars, the catalog `word_length`
for strings. -/
def typeRegs : RegisterDataType → Nat → Nat
  | .UINT16, _ => 1
  | .INT16, _ => 1
  | .UINT32, _ => 2
  | .ACC32, _ => 2
  | .FLOAT32, _ => 2
  | .SEFLOAT, _ => 2
  | .UINT64, _ => 4
  | .STRING, length => length

/-- The batch layout discipline under which the decode cursor stays in sync
with absolute addresses: each field in iteration order starts at or after
the running cursor, which then moves past the field. -/
def chainOK : List (String × FieldDesc) → Nat → Bool
  | [], _ => true
  | (_, v) :: rest, c => c ≤ v.address && chainOK rest (v.address + v.length)

/-- Each field's decode consumes exactly its catalog `word_length` (true of
every register in the repository's catalog). -/
def widthOK (values : List (String × FieldDesc)) : Bool :=
  values.all fun kv => typeRegs kv.2.dtype kv.2.length == kv.2.length

/-! Helper lemmas shared by the claim theorems. -/

theorem bind_ok_eq {ε α β : Type} (a : α) (f : α → Except ε β) :
    (Except.ok a : Except ε α) >>= f = f a := rfl

theorem pure_eq_ok {ε α : Type} (a : α) : (pure a : Except ε α) = .ok a := rfl

theorem pyAsInt_int (n : Int) : pyAsInt (.int n) = .ok n := rfl

theorem natBytesBE_two (n : Nat) : natBytesBE 2 n = [n / 256 ^ 1 % 256, n / 256 ^ 0 % 256] := rfl

theorem bytesToRegs_two (a b : Nat) : bytesToRegs [a, b] = [a * 256 + b] := rfl

theorem u16_decode (r : Nat) (hs : r ≠ 0xFFFF) :
    decode_value (some (fromRegisters [r])) 1 .UINT16 .vint =
      .ok (.int r, ⟨[r / 256, r % 256], 2⟩) := by
  have hr : (0 * 256 + r / 256) * 256 + r % 256 = r := by omega
  have hb : ((r : Int) == (65535 : Int)) = false := by
    simp only [beq_eq_false_iff_ne, ne_eq]
    exact_mod_cast hs
  simp only [decode_value, fromRegisters, Decoder.decodeUint, Decoder.readBytes, Decoder.advance,
    bytesBE, isSentinel, vtypeApply, SUNSPEC_NOT_IMPLEMENTED, List.foldr, List.foldl,
    List.drop, List.take, List.length, hr, if_true, Except.map, Nat.cast_ofNat, hb,
    Bool.false_eq_true, if_false, bind, Except.bind, pure, Except.pure, Nat.zero_add]

theorem u32_decode (a b : Nat) (ha : a < 2 ^ 16) (hb : b < 2 ^ 16)
    (hs : ¬(a = 0xFFFF ∧ b = 0xFFFF)) :
    decode_value (some (fromRegisters [a, b])) 2 .UINT32 .vint =
      .ok (.int (a * 2 ^ 16 + b), ⟨[a / 256, a % 256, b / 256, b % 256], 4⟩) := by
  have hr : (((0 * 256 + a / 256) * 256 + a % 256) * 256 + b / 256) * 256 + b % 256 =
      a * 2 ^ 16 + b := by omega
  have hbq : (((a * 2 ^ 16 + b : Nat) : Int) == (4294967295 : Int)) = false := by
    simp only [beq_eq_false_iff_ne, ne_eq]
    have hne : a * 2 ^ 16 + b ≠ 4294967295 := by omega
    exact_mod_cast hne
  simp only [decode_value, fromRegisters, Decoder.decodeUint, Decoder.readBytes, Decoder.advance,
    bytesBE, isSentinel, vtypeApply, SUNSPEC_NOT_IMPLEMENTED, List.foldr, List.foldl,
    List.drop, List.take, List.length, hr, if_true, Except.map, Nat.cast_ofNat, hbq,
    Bool.false_eq_true, if_false, bind, Except.bind, pure, Except.pure, Nat.zero_add]
  norm_cast

theorem u64_decode (a b c d : Nat) (ha : a < 2 ^ 16) (hb : b < 2 ^ 16) (hc : c < 2 ^ 16)
    (hd : d < 2 ^ 16) (hs : ¬(a = 0xFFFF ∧ b = 0xFFFF ∧ c = 0xFFFF ∧ d = 0xFFFF)) :
    decode_value (some (fromRegisters [a, b, c, d])) 4 .UINT64 .vint =
      .ok (.int (a * 2 ^ 48 + b * 2 ^ 32 + c * 2 ^ 16 + d),
        ⟨[a / 256, a % 256, b / 256, b % 256, c / 256, c % 256, d / 256, d % 256], 8⟩) := by
  have hr : (((((((0 * 256 + a / 256) * 256 + a % 256) * 256 + b / 256) * 256 + b % 256) * 256 +
      c / 256) * 256 + c % 256) * 256 + d / 256) * 256 + d % 256 =
      a * 2 ^ 48 + b * 2 ^ 32 + c * 2 ^ 16 + d := by omega
  have hbq : (((a * 2 ^ 48 + b * 2 ^ 32 + c * 2 ^ 16 + d : Nat) : Int) ==
      (18446744073709551615 : Int)) = false := by
    simp only [beq_eq_false_iff_ne, ne_eq]
    have hne : a * 2 ^ 48 + b * 2 ^ 32 + c * 2 ^ 16 + d ≠ 18446744073709551615 := by omega
    exact_mod_cast hne
  simp only [decode_value, fromRegisters, Decoder.decodeUint, Decoder.readBytes, Decoder.advance,
    bytesBE, isSentinel, vtypeApply, SUNSPEC_NOT_IMPLEMENTED, List.foldr, List.foldl,
    List.drop, List.take, List.length, hr, if_true, Except.map, Nat.cast_ofNat, hbq,
    Bool.false_eq_true, if_false, bind, Except.bind, pure, Except.pure, Nat.zero_add]
  norm_cast

theorem i16_decode (r : Nat) (h : r < 2 ^ 16) :
    decode_value (some (fromRegisters [r])) 1 .INT16 .vint =
      .ok (.int (toSigned16 r), ⟨[r / 256, r % 256], 2⟩) := by
  have hr : (0 * 256 + r / 256) * 256 + r % 256 = r := by omega
  have hb : ((toSigned16 r) == (32768 : Int)) = false := by
    simp only [beq_eq_false_iff_ne, ne_eq]
    unfold toSigned16
    split <;> omega
  simp only [decode_value, fromRegisters, Decoder.decodeUint, Decoder.readBytes, Decoder.advance,
    bytesBE, isSentinel, vtypeApply, SUNSPEC_NOT_IMPLEMENTED, List.foldr, List.foldl,
    List.drop, List.take, List.length, hr, if_true, Except.map, Nat.cast_ofNat, hb,
    Bool.false_eq_true, if_false, bind, Except.bind, pure, Except.pure, Nat.zero_add]

theorem u16_encode (r : Nat) (h : r < 2 ^ 16) :
    encode_value (.int r) .UINT16 = .ok [r] := by
  have hc : (0 : Int) ≤ (r : Int) ∧ (r : Int) < 2 ^ 16 :=
    ⟨Int.natCast_nonneg r, by exact_mod_cast h⟩
  unfold encode_value
  dsimp only []
  rw [pyAsInt_int, bind_ok_eq]
  rw [if_pos hc, Int.toNat_natCast, natBytesBE_two, bytesToRegs_two, pure_eq_ok]
  rw [pow_one, pow_zero]
  have hx : r / 256 % 256 * 256 + r / 1 % 256 = r := by omega
  rw [hx]

theorem u32_encode (a b : Nat) (ha : a < 2 ^ 16) (hb : b < 2 ^ 16) :
    encode_value (.int (a * 2 ^ 16 + b)) .UINT32 = .ok [a, b] := by
  have hcast : ((a : Int) * 2 ^ 16 + (b : Int)) = ((a * 2 ^ 16 + b : Nat) : Int) := by
    push_cast
    ring
  rw [hcast]
  set n : Nat := a * 2 ^ 16 + b with hn
  have h : n < 2 ^ 32 := by omega
  have hc : (0 : Int) ≤ (n : Int) ∧ (n : Int) < 2 ^ 32 :=
    ⟨Int.natCast_nonneg n, by exact_mod_cast h⟩
  unfold encode_value
  dsimp only []
  rw [pyAsInt_int, bind_ok_eq]
  rw [if_pos hc, Int.toNat_natCast]
  show Except.ok (bytesToRegs [n / 256 ^ 3 % 256, n / 256 ^ 2 % 256,
    n / 256 ^ 1 % 256, n / 256 ^ 0 % 256]) = .ok [a, b]
  show Except.ok [n / 256 ^ 3 % 256 * 256 + n / 256 ^ 2 % 256,
    n / 256 ^ 1 % 256 * 256 + n / 256 ^ 0 % 256] = .ok [a, b]
  have e3 : (256 : Nat) ^ 3 = 16777216 := by norm_num
  have e2 : (256 : Nat) ^ 2 = 65536 := by norm_num
  rw [e3, e2, pow_one, pow_zero]
  have hx : n / 16777216 % 256 * 256 + n / 65536 % 256 = a := by omega
  have hy : n / 256 % 256 * 256 + n / 1 % 256 = b := by omega
  rw [hx, hy]

theorem u64_encode (a b c d : Nat) (ha : a < 2 ^ 16) (hb : b < 2 ^ 16) (hc : c < 2 ^ 16)
    (hd : d < 2 ^ 16) :
    encode_value (.int (a * 2 ^ 48 + b * 2 ^ 32 + c * 2 ^ 16 + d)) .UINT64 = .ok [a, b, c, d] := by
  have hcast : ((a : Int) * 2 ^ 48 + (b : Int) * 2 ^ 32 + (c : Int) * 2 ^ 16 + (d : Int)) =
      ((a * 2 ^ 48 + b * 2 ^ 32 + c * 2 ^ 16 + d : Nat) : Int) := by
    push_cast
    ring
  rw [hcast]
  set n : Nat := a * 2 ^ 48 + b * 2 ^ 32 + c * 2 ^ 16 + d with hn
  have h : n < 2 ^ 64 := by omega
  have hcnd : (0 : Int) ≤ (n : Int) ∧ (n : Int) < 2 ^ 64 :=
    ⟨Int.natCast_nonneg n, by exact_mod_cast h⟩
  unfold encode_value
  dsimp only []
  rw [pyAsInt_int, bind_ok_eq]
  rw [if_pos hcnd, Int.toNat_natCast]
  show Except.ok (bytesToRegs [n / 256 ^ 7 % 256, n / 256 ^ 6 % 256, n / 256 ^ 5 % 256,
    n / 256 ^ 4 % 256, n / 256 ^ 3 % 256, n / 256 ^ 2 % 256,
    n / 256 ^ 1 % 256, n / 256 ^ 0 % 256]) = .ok [a, b, c, d]
  show Except.ok [n / 256 ^ 7 % 256 * 256 + n / 256 ^ 6 % 256,
    n / 256 ^ 5 % 256 * 256 + n / 256 ^ 4 % 256,
    n / 256 ^ 3 % 256 * 256 + n / 256 ^ 2 % 256,
    n / 256 ^ 1 % 256 * 256 + n / 256 ^ 0 % 256] = .ok [a, b, c, d]
  have e7 : (256 : Nat) ^ 7 = 72057594037927936 := by norm_num
  have e6 : (256 : Nat) ^ 6 = 281474976710656 := by norm_num
  have e5 : (256 : Nat) ^ 5 = 1099511627776 := by norm_num
  have e4 : (256 : Nat) ^ 4 = 4294967296 := by norm_num
  have e3 : (256 : Nat) ^ 3 = 16777216 := by norm_num
  have e2 : (256 : Nat) ^ 2 = 65536 := by norm_num
  rw [e7, e6, e5, e4, e3, e2, pow_one, pow_zero]
  have hxa : n / 72057594037927936 % 256 * 256 + n / 281474976710656 % 256 = a := by omega
  have hxb : n / 1099511627776 % 256 * 256 + n / 4294967296 % 256 = b := by omega
  have hxc : n / 16777216 % 256 * 256 + n / 65536 % 256 = c := by omega
  have hxd : n / 256 % 256 * 256 + n / 1 % 256 = d := by omega
  rw [hxa, hxb, hxc, hxd]

theorem i16_encode (r : Nat) (h : r < 2 ^ 16) :
    encode_value (.int (toSigned16 r)) .INT16 = .ok [r] := by
  have hc : -(2 ^ 15) ≤ toSigned16 r ∧ toSigned16 r < 2 ^ 15 := by
    unfold toSigned16
    split <;> omega
  unfold encode_value
  dsimp only []
  rw [pyAsInt_int, bind_ok_eq]
  rw [if_pos hc]
  have hmod : ((toSigned16 r) % (2 ^ 16) : Int).toNat = r := by
    have h16 : (2 : Int) ^ 16 = 65536 := by norm_num
    rw [h16]
    unfold toSigned16
    split <;> omega
  rw [hmod, natBytesBE_two, bytesToRegs_two, pure_eq_ok]
  rw [pow_one, pow_zero]
  have hx : r / 256 % 256 * 256 + r / 1 % 256 = r := by omega
  rw [hx]

theorem spanStep_some (m M : Nat) (kv : String × FieldDesc) :
    spanStep (some m, some M) kv =
      (some (min m kv.2.address), some (max M (kv.2.address + kv.2.length))) := by
  unfold spanStep
  have h1 : (if kv.2.address < m then kv.2.address else m) = min m kv.2.address := by
    split <;> omega
  have h2 : (if kv.2.address + kv.2.length > M then kv.2.address + kv.2.length else M) =
      max M (kv.2.address + kv.2.length) := by
    split <;> omega
  simp only [h1, h2]

theorem spanFold_go (rest : List (String × FieldDesc)) :
    ∀ m M : Nat,
      rest.foldl spanStep (some m, some M) =
        (some (rest.foldl (fun a kv => min a kv.2.address) m),
          some (rest.foldl (fun a kv => max a (kv.2.address + kv.2.length)) M)) := by
  induction rest with
  | nil => intro m M; rfl
  | cons kv rest ih =>
    intro m M
    simp only [List.foldl_cons, spanStep_some]
    exact ih (min m kv.2.address) (max M (kv.2.address + kv.2.length))

theorem spanFold_cons (kv : String × FieldDesc) (rest : List (String × FieldDesc)) :
    spanFold (kv :: rest) =
      (some (rest.foldl (fun a kv => min a kv.2.address) kv.2.address),
        some (rest.foldl (fun a kv => max a (kv.2.address + kv.2.length))
          (kv.2.address + kv.2.length))) := by
  unfold spanFold
  simp only [List.foldl_cons]
  have h0 : spanStep (none, none) kv = (some kv.2.address, some (kv.2.address + kv.2.length)) := rfl
  rw [h0, spanFold_go]

theorem foldl_min_le (l : List Nat) :
    ∀ a : Nat, l.foldl min a ≤ a ∧ ∀ x ∈ l, l.foldl min a ≤ x := by
  induction l with
  | nil => intro a; simp
  | cons x l ih =>
    intro a
    simp only [List.foldl_cons, List.mem_cons]
    obtain ⟨h1, h2⟩ := ih (min a x)
    refine ⟨le_trans h1 (min_le_left a x), ?_⟩
    rintro y (rfl | hy)
    · exact le_trans h1 (min_le_right a y)
    · exact h2 y hy

theorem foldl_min_mem (l : List Nat) : ∀ a : Nat, l.foldl min a = a ∨ l.foldl min a ∈ l := by
  induction l with
  | nil => intro a; simp
  | cons x l ih =>
    intro a
    simp only [List.foldl_cons, List.mem_cons]
    rcases ih (min a x) with h | h
    · rcases le_total a x with hax | hxa
      · exact Or.inl (h.trans (min_eq_left hax))
      · exact Or.inr (Or.inl (h.trans (min_eq_right hxa)))
    · exact Or.inr (Or.inr h)

theorem foldl_max_le (l : List Nat) :
    ∀ a : Nat, a ≤ l.foldl max a ∧ ∀ x ∈ l, x ≤ l.foldl max a := by
  induction l with
  | nil => intro a; simp
  | cons x l ih =>
    intro a
    simp only [List.foldl_cons, List.mem_cons]
    obtain ⟨h1, h2⟩ := ih (max a x)
    refine ⟨le_trans (le_max_left a x) h1, ?_⟩
    rintro y (rfl | hy)
    · exact le_trans (le_max_right a y) h1
    · exact h2 y hy

theorem foldl_max_mem (l : List Nat) : ∀ a : Nat, l.foldl max a = a ∨ l.foldl max a ∈ l := by
  induction l with
  | nil => intro a; simp
  | cons x l ih =>
    intro a
    simp only [List.foldl_cons, List.mem_cons]
    rcases ih (max a x) with h | h
    · rcases le_total a x with hax | hxa
      · exact Or.inr (Or.inl (h.trans (max_eq_right hax)))
      · exact Or.inl (h.trans (max_eq_left hxa))
    · exact Or.inr (Or.inr h)

theorem decodeUint_ok (d : Decoder) (nb n : Nat) (d2 : Decoder)
    (h : d.decodeUint nb = .ok (n, d2)) : d2 = d.advance nb := by
  unfold Decoder.decodeUint at h
  dsimp only [] at h
  split at h
  · simp only [Except.ok.injEq, Prod.mk.injEq] at h
    exact h.2.symm
  · simp at h

theorem decode_value_decoder_eq (d : Decoder) (length : Nat) (dtype : RegisterDataType)
    (vtype : VType) (val : PyValue) (d' : Decoder)
    (h : decode_value (some d) length dtype vtype = .ok (val, d')) :
    d' = d.advance (2 * typeRegs dtype length) := by
  cases dtype <;>
    simp only [decode_value, Decoder.decodeString, Except.map, bind, Except.bind, pure,
      Except.pure, typeRegs] at h ⊢
  case STRING =>
    split at h
    · simp only [Except.ok.injEq, Prod.mk.injEq] at h
      rw [← h.2]
      unfold Decoder.advance
      rw [Nat.mul_comm]
    · split at h
      · simp at h
      · simp only [Except.ok.injEq, Prod.mk.injEq] at h
        rw [← h.2]
        unfold Decoder.advance
        rw [Nat.mul_comm]
  all_goals
    first
    | (rcases hdu : d.decodeUint 2 with e | ⟨n, d2⟩ <;> rw [hdu] at h
       · simp at h
       · have hd2 := decodeUint_ok d 2 n d2 hdu
         dsimp only [] at h
         split at h
         · simp only [Except.ok.injEq, Prod.mk.injEq] at h
           rw [← h.2, hd2]
         · split at h
           · simp at h
           · simp only [Except.ok.injEq, Prod.mk.injEq] at h
             rw [← h.2, hd2])
    | (rcases hdu : d.decodeUint 4 with e | ⟨n, d2⟩ <;> rw [hdu] at h
       · simp at h
       · have hd2 := decodeUint_ok d 4 n d2 hdu
         dsimp only [] at h
         split at h
         · simp only [Except.ok.injEq, Prod.mk.injEq] at h
           rw [← h.2, hd2]
         · split at h
           · simp at h
           · simp only [Except.ok.injEq, Prod.mk.injEq] at h
             rw [← h.2, hd2])
    | (rcases hdu : d.decodeUint 8 with e | ⟨n, d2⟩ <;> rw [hdu] at h
       · simp at h
       · have hd2 := decodeUint_ok d 8 n d2 hdu
         dsimp only [] at h
         split at h
         · simp only [Except.ok.injEq, Prod.mk.injEq] at h
           rw [← h.2, hd2]
         · split at h
           · simp at h
           · simp only [Except.ok.injEq, Prod.mk.injEq] at h
             rw [← h.2, hd2])

theorem decode_loop_positions (values : List (String × FieldDesc)) :
    ∀ (offset base : Nat) (P : List Nat) (results : List (String × PyValue)),
      base ≤ offset →
      chainOK values offset = true →
      widthOK values = true →
      decode_loop values offset ⟨P, 2 * (offset - base)⟩ = .ok results →
      List.Forall₂
        (fun kv rv => rv.1 = kv.1 ∧
          ∃ d', decode_value (some ⟨P, 2 * (kv.2.address - base)⟩) kv.2.length kv.2.dtype
              kv.2.vtype = .ok (rv.2, d'))
        values results := by
  induction values with
  | nil =>
    intro offset base P results hbase hchain hwidth h
    simp only [decode_loop, Except.ok.injEq] at h
    rw [← h]
    exact List.Forall₂.nil
  | cons kv rest ih =>
    obtain ⟨k, v⟩ := kv
    intro offset base P results hbase hchain hwidth h
    simp only [chainOK, Bool.and_eq_true, decide_eq_true_eq] at hchain
    obtain ⟨hof, hrest⟩ := hchain
    simp only [widthOK, List.all_cons, Bool.and_eq_true, beq_iff_eq] at hwidth
    obtain ⟨hw, hwrest⟩ := hwidth
    have hwrest' : widthOK rest = true := by simpa [widthOK] using hwrest
    simp only [decode_loop] at h
    have hod : (if v.address > offset then
          (v.address - offset + offset,
            Decoder.advance ⟨P, 2 * (offset - base)⟩ ((v.address - offset) * 2))
        else (offset, (⟨P, 2 * (offset - base)⟩ : Decoder))) =
        (v.address, (⟨P, 2 * (v.address - base)⟩ : Decoder)) := by
      split
      · next hgt =>
        unfold Decoder.advance
        simp only [Prod.mk.injEq, Decoder.mk.injEq]
        exact ⟨by omega, trivial, by omega⟩
      · next hngt =>
        have : v.address = offset := by omega
        rw [this]
    rw [hod] at h
    dsimp only [] at h
    rcases hdv : decode_value (some ⟨P, 2 * (v.address - base)⟩) v.length v.dtype v.vtype with
      e | ⟨val, d'⟩ <;> rw [hdv] at h
    · simp at h
    · dsimp only [] at h
      have hd' := decode_value_decoder_eq _ _ _ _ _ _ hdv
      rw [hw] at hd'
      have hd'2 : d' = (⟨P, 2 * (v.address + v.length - base)⟩ : Decoder) := by
        rw [hd']
        unfold Decoder.advance
        simp only [Decoder.mk.injEq]
        exact ⟨trivial, by omega⟩
      rcases hdl : decode_loop rest (v.address + v.length) d' with e2 | results' <;>
        rw [hdl] at h
      · simp at h
      · simp only [Except.ok.injEq] at h
        rw [← h]
        refine List.Forall₂.cons ⟨rfl, ⟨d', hdv⟩⟩ ?_
        rw [hd'2] at hdl
        exact ih (v.address + v.length) base P results' (by omega) hrest hwrest' hdl

theorem read_holding_registers_zero {σ ω : Type} (T : Transport σ ω) (unit a l : Nat) (s : σ) :
    read_holding_registers T unit 0 a l s = (none, s) := rfl

theorem read_holding_registers_succ {σ ω : Type} (T : Transport σ ω) (unit n a l : Nat) (s : σ) :
    read_holding_registers T unit (n + 1) a l s =
      if ¬T.is_socket_open s then read_holding_registers T unit n a l (T.connect s)
      else
        let rs := T.read_holding s a l unit
        if ¬rs.1.isResponse then read_holding_registers T unit n a l rs.2
        else if rs.1.registers.length ≠ l then read_holding_registers T unit n a l rs.2
        else (some (fromRegisters rs.1.registers), rs.2) := rfl

theorem read_holding_exhausts {σ ω : Type} (T : Transport σ ω) (γ : σ → Nat) (unit : Nat)
    (hconn : ∀ s, T.is_socket_open s = true)
    (hbad : ∀ s a l u, (T.read_holding s a l u).1.isResponse = false ∨
      (T.read_holding s a l u).1.registers.length ≠ l)
    (hγ : ∀ s a l u, γ (T.read_holding s a l u).2 = γ s + 1) :
    ∀ (n a l : Nat) (s : σ),
      (read_holding_registers T unit n a l s).1 = none ∧
      γ (read_holding_registers T unit n a l s).2 = γ s + n := by
  intro n
  induction n with
  | zero =>
    intro a l s
    exact ⟨rfl, rfl⟩
  | succ m ih =>
    intro a l s
    rw [read_holding_registers_succ, hconn s]
    simp only [not_true, Bool.false_eq_true, if_false, ite_false]
    have hb := hbad s a l unit
    have hg := hγ s a l unit
    cases hp : T.read_holding s a l unit with
    | mk r s' =>
    rw [hp] at hb hg
    dsimp only [] at hb hg ⊢
    rcases hb with hb | hb
    · rw [hb, if_pos (show ¬(false = true) by simp)]
      obtain ⟨i1, i2⟩ := ih a l s'
      exact ⟨i1, by rw [i2, hg]; omega⟩
    · by_cases hir : r.isResponse = true
      · rw [hir, if_neg (show ¬¬(true = true) by simp), if_pos hb]
        obtain ⟨i1, i2⟩ := ih a l s'
        exact ⟨i1, by rw [i2, hg]; omega⟩
      · rw [Bool.not_eq_true] at hir
        rw [hir, if_pos (show ¬(false = true) by simp)]
        obtain ⟨i1, i2⟩ := ih a l s'
        exact ⟨i1, by rw [i2, hg]; omega⟩

theorem read_all_loop_nil {σ ω : Type} (T : Transport σ ω) (unit retries : Nat)
    (regs : List (String × FieldDesc)) (rtype : RegisterType)
    (acc : List (String × PyValue)) (s : σ) :
    read_all_loop T unit retries regs rtype [] acc s = (.ok acc, s) := rfl

theorem read_all_loop_cons {σ ω : Type} (T : Transport σ ω) (unit retries : Nat)
    (regs : List (String × FieldDesc)) (rtype : RegisterType) (b : Nat) (bs : List Nat)
    (acc : List (String × PyValue)) (s : σ) :
    read_all_loop T unit retries regs rtype (b :: bs) acc s =
      (if (regs.filter (·.2.batch == b)).isEmpty then (.ok acc, s)
       else
         match read_all_batch T unit retries (regs.filter (·.2.batch == b)) rtype s with
         | (.error e, s') => (.error e, s')
         | (.ok res, s') => read_all_loop T unit retries regs rtype bs (dictUpdate acc res) s') :=
  rfl

theorem read_all_merge_spec_nil {σ ω : Type} (T : Transport σ ω) (unit retries : Nat)
    (regs : List (String × FieldDesc)) (rtype : RegisterType)
    (acc : List (String × PyValue)) (s : σ) :
    read_all_merge_spec T unit retries regs rtype [] acc s = (.ok acc, s) := rfl

theorem read_all_merge_spec_cons {σ ω : Type} (T : Transport σ ω) (unit retries : Nat)
    (regs : List (String × FieldDesc)) (rtype : RegisterType) (b : Nat) (bs : List Nat)
    (acc : List (String × PyValue)) (s : σ) :
    read_all_merge_spec T unit retries regs rtype (b :: bs) acc s =
      (match read_all_batch T unit retries (regs.filter (·.2.batch == b)) rtype s with
       | (.error e, s') => (.error e, s')
       | (.ok res, s') =>
         read_all_merge_spec T unit retries regs rtype bs (dictUpdate acc res) s') := rfl

theorem read_all_loop_no_break {σ ω : Type} (T : Transport σ ω) (unit retries : Nat)
    (regs : List (String × FieldDesc)) (rtype : RegisterType) :
    ∀ (ids : List Nat) (acc : List (String × PyValue)) (s : σ),
      (∀ b ∈ ids, (regs.filter (·.2.batch == b)).isEmpty = false) →
      read_all_loop T unit retries regs rtype ids acc s =
        read_all_merge_spec T unit retries regs rtype ids acc s := by
  intro ids
  induction ids with
  | nil => intro acc s _; rfl
  | cons b bs ih =>
    intro acc s h
    rw [read_all_loop_cons, read_all_merge_spec_cons]
    rw [h b (List.mem_cons_self b bs)]
    simp only [Bool.false_eq_true, if_false, ite_false]
    cases hrb : read_all_batch T unit retries (regs.filter (·.2.batch == b)) rtype s with
    | mk r s' =>
    cases r with
    | error e => rfl
    | ok res => exact ih (dictUpdate acc res) s' fun b hb => h b (List.mem_cons_of_mem _ hb)

theorem read_all_loop_append {σ ω : Type} (T : Transport σ ω) (unit retries : Nat)
    (regs : List (String × FieldDesc)) (rtype : RegisterType) :
    ∀ (ids1 ids2 : List Nat) (acc : List (String × PyValue)) (s : σ),
      (∀ b ∈ ids1, (regs.filter (·.2.batch == b)).isEmpty = false) →
      read_all_loop T unit retries regs rtype (ids1 ++ ids2) acc s =
        (match read_all_merge_spec T unit retries regs rtype ids1 acc s with
         | (.error e, s') => (.error e, s')
         | (.ok acc', s') => read_all_loop T unit retries regs rtype ids2 acc' s') := by
  intro ids1
  induction ids1 with
  | nil => intro ids2 acc s _; rfl
  | cons b bs ih =>
    intro ids2 acc s h
    rw [List.cons_append, read_all_loop_cons, read_all_merge_spec_cons]
    rw [h b (List.mem_cons_self b bs)]
    simp only [Bool.false_eq_true, if_false, ite_false]
    cases hrb : read_all_batch T unit retries (regs.filter (·.2.batch == b)) rtype s with
    | mk r s' =>
    cases r with
    | error e => rfl
    | ok res => exact ih ids2 (dictUpdate acc res) s' fun b hb => h b (List.mem_cons_of_mem _ hb)

theorem read_all_loop_break_head {σ ω : Type} (T : Transport σ ω) (unit retries : Nat)
    (regs : List (String × FieldDesc)) (rtype : RegisterType) (b : Nat) (bs : List Nat)
    (acc : List (String × PyValue)) (s : σ)
    (h : (regs.filter (·.2.batch == b)).isEmpty = true) :
    read_all_loop T unit retries regs rtype (b :: bs) acc s = (.ok acc, s) := by
  rw [read_all_loop_cons, if_pos h]

theorem read_field_holding_eq {σ ω : Type} (T : Transport σ ω) (unit retries : Nat)
    (v : FieldDesc) (s : σ) (hH : v.rtype = .HOLDING) :
    read_field T unit retries v s =
      (let rs := read_holding_registers T unit retries v.address v.length s
       (match decode_value rs.1 v.length v.dtype v.vtype with
        | .ok (val, _) => .ok val
        | .error .attributeError => .ok (.bool false)
        | .error e => .error e,
        rs.2)) := by
  obtain ⟨a, l, rt, dt, vt, lb, bt⟩ := v
  dsimp only [] at hH
  rw [hH]
  rfl

theorem read_field_input_eq {σ ω : Type} (T : Transport σ ω) (unit retries : Nat)
    (v : FieldDesc) (s : σ) (hI : v.rtype = .INPUT) :
    read_field T unit retries v s = (.ok (.bool false), s) := by
  obtain ⟨a, l, rt, dt, vt, lb, bt⟩ := v
  dsimp only [] at hI
  rw [hI]
  rfl

theorem read_all_batch_holding_eq {σ ω : Type} (T : Transport σ ω) (unit retries : Nat)
    (values : List (String × FieldDesc)) (s : σ) :
    read_all_batch T unit retries values .HOLDING s =
      (let offset := (spanFold values).1.getD 0
       let rs := read_holding_registers T unit retries offset
         ((spanFold values).2.getD 0 - offset) s
       (match rs.1 with
        | none => .ok []
        | some d => decode_loop values offset d,
        rs.2)) := rfl

theorem read_all_batch_input_eq {σ ω : Type} (T : Transport σ ω) (unit retries : Nat)
    (values : List (String × FieldDesc)) (s : σ) :
    read_all_batch T unit retries values .INPUT s = (.error .attributeError, s) := rfl

theorem device_read_eq {σ ω : Type} (dev : Device σ ω) (key : String) (s : σ) :
    dev.read key s =
      (match lookupReg dev.registers key with
       | none => (.error (.keyError key), s)
       | some v =>
         let rs := read_field dev.transport dev.unit dev.retries v s
         (rs.1.map fun val => [(key, val)], rs.2)) := rfl

theorem device_write_eq {σ ω : Type} (dev : Device σ ω) (key : String) (data : PyValue) (s : σ) :
    dev.write key data s =
      (match lookupReg dev.registers key with
       | none => (.error (.keyError key), s)
       | some v => write_field dev.transport dev.unit v data s) := rfl

theorem write_field_holding_eq {σ ω : Type} (T : Transport σ ω) (unit : Nat) (v : FieldDesc)
    (data : PyValue) (s : σ) (hH : v.rtype = .HOLDING) :
    write_field T unit v data s =
      (match encode_value data v.dtype with
       | .error e => (.error e, s)
       | .ok regs =>
         let ws := T.write_registers s v.address regs unit
         (.ok ws.1, ws.2)) := by
  obtain ⟨a, l, rt, dt, vt, lb, bt⟩ := v
  dsimp only [] at hH
  rw [hH]
  rfl

theorem write_field_input_eq {σ ω : Type} (T : Transport σ ω) (unit : Nat) (v : FieldDesc)
    (data : PyValue) (s : σ) (hI : v.rtype = .INPUT) :
    write_field T unit v data s = (.error .notImplementedError, s) := by
  obtain ⟨a, l, rt, dt, vt, lb, bt⟩ := v
  dsimp only [] at hI
  rw [hI]
  rfl

theorem device_read_all_eq {σ ω : Type} (dev : Device σ ω) (rtype : RegisterType) (s : σ) :
    dev.read_all rtype s =
      read_all_loop dev.transport dev.unit dev.retries
        (dev.registers.filter (·.2.rtype == rtype)) rtype
        (List.range' 1 ((dev.registers.filter (·.2.rtype == rtype)).length - 1)) [] s := rfl

theorem meters_eq {σ ω : Type} (inv : Device σ ω) (s : σ) :
    Inverter.meters inv s =
      (let r1 := read_field inv.transport inv.unit inv.retries
        ⟨0x9cfc, 1, .HOLDING, .UINT16, .vint, "", 1⟩ s
       match r1.1 with
       | .error e => (.error e, r1.2)
       | .ok v1 =>
         let r2 := read_field inv.transport inv.unit inv.retries
           ⟨0x9daa, 1, .HOLDING, .UINT16, .vint, "", 1⟩ r1.2
         match r2.1 with
         | .error e => (.error e, r2.2)
         | .ok v2 =>
           ((.ok
               ((if pyTruthy v1 then [("Meter1", mkMeter inv 0)] else []) ++
                 (if pyTruthy v2 then [("Meter2", mkMeter inv 1)] else []))),
             r2.2)) := rfl

/-! Concrete transports and devices used by the claim theorems' witnesses
and counterexamples. -/

/-- The decoded value of a register run (the decoder's final state
dropped), for stating claims about decode results. -/
def decodeFst (regs : List Nat) (length : Nat) (dtype : RegisterDataType) (vtype : VType) :
    Except PyError PyValue :=
  (decode_value (some (fromRegisters regs)) length dtype vtype).map Prod.fst

/-- A transport stub that is always connected and always returns a
non-response (malformed) result; its `Nat` state counts read attempts. -/
def stubMalformed : Transport Nat Unit where
  is_socket_open := fun _ => true
  connect := fun s => s
  read_holding := fun s _ _ _ => ({ isResponse := false, registers := [] }, s + 1)
  write_registers := fun s _ _ _ => ((), s)

/-- A transport stub that is always connected and answers every range read
with all-ones registers; its `Nat` state counts read attempts. -/
def stubOnes : Transport Nat Unit where
  is_socket_open := fun _ => true
  connect := fun s => s
  read_holding := fun s _ l _ => ({ isResponse := true, registers := List.replicate l 1 }, s + 1)
  write_registers := fun s _ _ _ => ((), s)

/-- A transport stub for meter discovery: the first probe register
(`0x9cfc`) answers a truthy 5, every other address answers the `UINT16`
sentinel `0xFFFF`. -/
def stubProbe : Transport Nat Unit where
  is_socket_open := fun _ => true
  connect := fun s => s
  read_holding := fun s a _ _ =>
    ({ isResponse := true, registers := if a == 0x9cfc then [5] else [0xFFFF] }, s + 1)
  write_registers := fun s _ _ _ => ((), s)

/-- A device with a single `STRING` field over the always-malformed
transport. -/
def devString : Device Nat Unit where
  transport := stubMalformed
  retries := 3
  unit := 1
  registers := [("s", ⟨0, 4, .HOLDING, .STRING, .vstr, "", 1⟩)]

/-- A device whose catalog holds two singleton batches with dense ids 1
and 2. -/
def devTwoBatches : Device Nat Unit where
  transport := stubOnes
  retries := 3
  unit := 1
  registers := [("a", ⟨10, 1, .HOLDING, .UINT16, .vint, "", 1⟩),
                ("b", ⟨20, 1, .HOLDING, .UINT16, .vint, "", 2⟩)]

/-- A device whose two fields share batch 1. -/
def devOneBatch : Device Nat Unit where
  transport := stubOnes
  retries := 3
  unit := 1
  registers := [("a", ⟨10, 1, .HOLDING, .UINT16, .vint, "", 1⟩),
                ("b", ⟨11, 1, .HOLDING, .UINT16, .vint, "", 1⟩)]

/-- A device with an empty catalog. -/
def devEmpty : Device Nat Unit where
  transport := stubOnes
  retries := 3
  unit := 1
  registers := []

/-- A device with two `INPUT`-class fields in batch 1. -/
def devInput : Device Nat Unit where
  transport := stubOnes
  retries := 3
  unit := 1
  registers := [("a", ⟨10, 1, .INPUT, .UINT16, .vint, "", 1⟩),
                ("b", ⟨11, 1, .INPUT, .UINT16, .vint, "", 1⟩)]

/-- An inverter over the discovery stub. -/
def invProbe : Device Nat Unit where
  transport := stubProbe
  retries := 3
  unit := 7
  registers := Inverter.registers

/-- A two-field batch whose middle register (address 11) is present in the
raw buffer but absent from the descriptor set. -/
def gapBatch : List (String × FieldDesc) :=
  [("A", ⟨10, 1, .HOLDING, .UINT16, .vint, "", 1⟩),
   ("C", ⟨12, 1, .HOLDING, .UINT16, .vint, "", 1⟩)]

/-! The claim theorems. -/

/-- C1: decoding the documented type-specific sentinel pattern yields the
program-wide absent value — true for `UINT16`, `UINT32`, `UINT64`, `ACC32`
and `STRING`, and non-sentinel patterns (including the boundary values 0,
max-unsigned, max-signed and negatives) decode to their exact semantic
values; but for `INT16`/`SCALE` the sentinel test compares the *signed*
decode `-32768` against the raw pattern `0x8000 = 32768` and never fires,
so the documented sentinel decodes to `-32768` instead of the absent value,
and for `FLOAT32`/`SEFLOAT` a NaN never equals the integer sentinel entry,
so with the `int` target the sentinel pattern raises `ValueError`
(`int(nan)`) instead of yielding the absent value.  This contradicts the
code's own `SUNSPEC_NOT_IMPLEMENTED` table. -/
theorem c1_sentinel_decode_per_type :
    decodeFst [0xFFFF] 1 .UINT16 .vint = .ok (vtypeOfFalse .vint) ∧
    decodeFst [0xFFFF, 0xFFFF] 2 .UINT32 .vint = .ok (.int 0) ∧
    decodeFst [0xFFFF, 0xFFFF, 0xFFFF, 0xFFFF] 4 .UINT64 .vint = .ok (.int 0) ∧
    decodeFst [0x0000, 0x0000] 2 .ACC32 .vint = .ok (.int 0) ∧
    decodeFst [0x0000, 0x0000] 2 .STRING .vstr = .ok (vtypeOfFalse .vstr) ∧
    decodeFst [0x0000] 1 .UINT16 .vint = .ok (.int 0) ∧
    decodeFst [0xFFFE] 1 .UINT16 .vint = .ok (.int 65534) ∧
    decodeFst [0x1234, 0x5678] 2 .UINT32 .vint = .ok (.int 305419896) ∧
    decodeFst [0x7FFF] 1 .INT16 .vint = .ok (.int 32767) ∧
    decodeFst [0xFFFF] 1 .INT16 .vint = .ok (.int (-1)) ∧
    decodeFst [0x0000] 1 .INT16 .vint = .ok (.int 0) ∧
    SUNSPEC_NOT_IMPLEMENTED RegisterDataType.INT16 = 0x8000 ∧
    decodeFst [0x8000] 1 .INT16 .vint = .ok (.int (-32768)) ∧
    PyValue.int (-32768) ≠ vtypeOfFalse .vint ∧
    pyEq (.int (-32768)) (vtypeOfFalse .vint) = false ∧
    SUNSPEC_NOT_IMPLEMENTED RegisterDataType.FLOAT32 = 0x7FC00000 ∧
    decodeFst [0x7FC0, 0x0000] 2 .FLOAT32 .vint = .error .valueError ∧
    SUNSPEC_NOT_IMPLEMENTED RegisterDataType.SEFLOAT = 0xFFFFFFFF ∧
    decodeFst [0xFFFF, 0xFFFF] 2 .SEFLOAT .vint = .error .valueError := by
  decide

/-- C2: the claim says a sentinel decode is never equal to a genuine
zero/empty decode — refuted: for `UINT16` with the `int` target, the
sentinel pattern decodes to `int(False) = 0`, exactly the decode of a
genuine zero register. -/
theorem c2_counterexample_sentinel_equals_zero :
    decodeFst [0xFFFF] 1 .UINT16 .vint = .ok (.int 0) ∧
    decodeFst [0x0000] 1 .UINT16 .vint = .ok (.int 0) ∧
    pyEq (.int 0) (.int 0) = true := by
  decide

/-- C2 (amended): for numeric targets the absent value `int(False) = 0`
*coincides* with the genuine-zero decode (`UINT16`, `UINT32`, `UINT64`; for
`ACC32` the zero pattern *is* the sentinel); only for the string target is
the absent value `str(False) = "False"` distinguishable from the empty
string; and for `INT16` the raw sentinel pattern decodes to `-32768` (the
C1 defect), which differs from a genuine zero but is not the absent
value. -/
theorem c2_amended_absent_vs_zero :
    decodeFst [0xFFFF] 1 .UINT16 .vint = decodeFst [0x0000] 1 .UINT16 .vint ∧
    decodeFst [0xFFFF, 0xFFFF] 2 .UINT32 .vint = decodeFst [0x0000, 0x0000] 2 .UINT32 .vint ∧
    decodeFst [0xFFFF, 0xFFFF, 0xFFFF, 0xFFFF] 4 .UINT64 .vint =
      decodeFst [0x0000, 0x0000, 0x0000, 0x0000] 4 .UINT64 .vint ∧
    decodeFst [0x0000, 0x0000] 2 .ACC32 .vint = .ok (vtypeOfFalse .vint) ∧
    decodeFst [0x0000, 0x0000] 2 .STRING .vstr = .ok (.str "False") ∧
    pyEq (.str "False") (.str "") = false ∧
    decodeFst [0x8000] 1 .INT16 .vint = .ok (.int (-32768)) ∧
    pyEq (.int (-32768)) (.int 0) = false := by
  decide

/-- C6: the round trip `encode(decode(x)) = x` fails for `STRING`: the raw
registers `[0x4142, 0x0000]` (the text `"AB"` padded with NULs) decode to
`"AB"`, which re-encodes to the single register `[0x4142]`, not the
original two. -/
theorem c6_counterexample_string_roundtrip :
    decodeFst [0x4142, 0x0000] 2 .STRING .vstr = .ok (.str "AB") ∧
    encode_value (.str "AB") .STRING = .ok [0x4142] ∧
    [0x4142] ≠ [0x4142, 0x0000] := by
  decide

/-- C6 (amended): for the integer writable types `UINT16`, `UINT32`,
`UINT64` and `INT16`, encoding the decoded value reproduces the raw
register words exactly, big-endian on both sides, for every in-range word
sequence other than the type's sentinel pattern (for `INT16` the exclusion
is not even needed: the sentinel test never fires, so `0x8000` decodes to
`-32768` and round-trips).  The round trip does not hold for `STRING`
(see the counterexample) and is not claimed here for the float types,
whose IEEE-754 NaN handling is outside this development's scope. -/
theorem c6_amended_integer_roundtrip :
    (∀ r : Nat, r < 2 ^ 16 → r ≠ 0xFFFF →
      decodeFst [r] 1 .UINT16 .vint = .ok (.int r) ∧
      encode_value (.int r) .UINT16 = .ok [r]) ∧
    (∀ a b : Nat, a < 2 ^ 16 → b < 2 ^ 16 → ¬(a = 0xFFFF ∧ b = 0xFFFF) →
      decodeFst [a, b] 2 .UINT32 .vint = .ok (.int (a * 2 ^ 16 + b)) ∧
      encode_value (.int (a * 2 ^ 16 + b)) .UINT32 = .ok [a, b]) ∧
    (∀ a b c d : Nat, a < 2 ^ 16 → b < 2 ^ 16 → c < 2 ^ 16 → d < 2 ^ 16 →
      ¬(a = 0xFFFF ∧ b = 0xFFFF ∧ c = 0xFFFF ∧ d = 0xFFFF) →
      decodeFst [a, b, c, d] 4 .UINT64 .vint =
        .ok (.int (a * 2 ^ 48 + b * 2 ^ 32 + c * 2 ^ 16 + d)) ∧
      encode_value (.int (a * 2 ^ 48 + b * 2 ^ 32 + c * 2 ^ 16 + d)) .UINT64 =
        .ok [a, b, c, d]) ∧
    (∀ r : Nat, r < 2 ^ 16 →
      decodeFst [r] 1 .INT16 .vint = .ok (.int (toSigned16 r)) ∧
      encode_value (.int (toSigned16 r)) .INT16 = .ok [r]) := by
  refine ⟨?_, ?_, ?_, ?_⟩
  · intro r h hs
    refine ⟨?_, u16_encode r h⟩
    unfold decodeFst
    rw [u16_decode r hs]
    rfl
  · intro a b ha hb hs
    refine ⟨?_, u32_encode a b ha hb⟩
    unfold decodeFst
    rw [u32_decode a b ha hb hs]
    rfl
  · intro a b c d ha hb hc hd hs
    refine ⟨?_, u64_encode a b c d ha hb hc hd⟩
    unfold decodeFst
    rw [u64_decode a b c d ha hb hc hd hs]
    rfl
  · intro r h
    refine ⟨?_, i16_encode r h⟩
    unfold decodeFst
    rw [i16_decode r h]
    rfl

/-- C6 witness: the amended round trip instantiated at concrete values of
each integer type. -/
theorem c6_amended_integer_roundtrip_witness :
    (decodeFst [0x1234] 1 .UINT16 .vint = .ok (.int 0x1234) ∧
      encode_value (.int 0x1234) .UINT16 = .ok [0x1234]) ∧
    (decodeFst [0x0001, 0x002C] 2 .UINT32 .vint = .ok (.int (1 * 2 ^ 16 + 44)) ∧
      encode_value (.int (1 * 2 ^ 16 + 44)) .UINT32 = .ok [1, 44]) ∧
    (decodeFst [1, 2, 3, 4] 4 .UINT64 .vint =
        .ok (.int (1 * 2 ^ 48 + 2 * 2 ^ 32 + 3 * 2 ^ 16 + 4)) ∧
      encode_value (.int (1 * 2 ^ 48 + 2 * 2 ^ 32 + 3 * 2 ^ 16 + 4)) .UINT64 =
        .ok [1, 2, 3, 4]) ∧
    (decodeFst [0x8001] 1 .INT16 .vint = .ok (.int (toSigned16 0x8001)) ∧
      encode_value (.int (toSigned16 0x8001)) .INT16 = .ok [0x8001]) :=
  ⟨c6_amended_integer_roundtrip.1 0x1234 (by decide) (by decide),
    c6_amended_integer_roundtrip.2.1 1 44 (by decide) (by decide) (by decide),
    c6_amended_integer_roundtrip.2.2.1 1 2 3 4 (by decide) (by decide) (by decide) (by decide)
      (by decide),
    c6_amended_integer_roundtrip.2.2.2 0x8001 (by decide)⟩

/-- C5: for every non-empty batch, the span computed by `_read_all` (the
`spanFold` at its head) has `addr_min` equal to the minimum address of the
batch and `addr_max` equal to the maximum of `address + word_length` (so
`offset = addr_min` and `length = addr_max - addr_min`); in particular the
batch `{10,1},{11,2},{20,1}` yields offset `10` and length `21 - 10 = 11`,
and a singleton batch collapses to the field's own range. -/
theorem c5_span_min_max :
    (∀ (k : String) (v : FieldDesc) (rest : List (String × FieldDesc)),
      ∃ m M, spanFold ((k, v) :: rest) = (some m, some M) ∧
        (∀ kv ∈ (k, v) :: rest, m ≤ kv.2.address) ∧
        (∃ kv ∈ (k, v) :: rest, kv.2.address = m) ∧
        (∀ kv ∈ (k, v) :: rest, kv.2.address + kv.2.length ≤ M) ∧
        (∃ kv ∈ (k, v) :: rest, kv.2.address + kv.2.length = M)) ∧
    spanFold [("x", ⟨10, 1, .HOLDING, .UINT16, .vint, "", 1⟩),
      ("y", ⟨11, 2, .HOLDING, .UINT16, .vint, "", 1⟩),
      ("z", ⟨20, 1, .HOLDING, .UINT16, .vint, "", 1⟩)] = (some 10, some 21) ∧
    21 - 10 = 11 ∧
    (∀ (k : String) (v : FieldDesc),
      spanFold [(k, v)] = (some v.address, some (v.address + v.length))) := by
  refine ⟨?_, by decide, by decide, ?_⟩
  · intro k v rest
    rw [spanFold_cons]
    have hmin := foldl_min_le (rest.map (fun kv => kv.2.address)) v.address
    have hminm := foldl_min_mem (rest.map (fun kv => kv.2.address)) v.address
    have hmax := foldl_max_le (rest.map (fun kv => kv.2.address + kv.2.length)) (v.address + v.length)
    have hmaxm := foldl_max_mem (rest.map (fun kv => kv.2.address + kv.2.length)) (v.address + v.length)
    rw [List.foldl_map] at hmin hminm hmax hmaxm
    refine ⟨_, _, rfl, ?_, ?_, ?_, ?_⟩
    · intro kv hkv
      rcases List.mem_cons.mp hkv with rfl | hkv
      · exact hmin.1
      · exact hmin.2 _ (List.mem_map_of_mem _ hkv)
    · rcases hminm with h | h
      · exact ⟨(k, v), List.mem_cons_self _ _, h.symm⟩
      · obtain ⟨kv, hkv, hv⟩ := List.mem_map.mp h
        exact ⟨kv, List.mem_cons_of_mem _ hkv, hv⟩
    · intro kv hkv
      rcases List.mem_cons.mp hkv with rfl | hkv
      · exact hmax.1
      · exact hmax.2 _ (List.mem_map_of_mem _ hkv)
    · rcases hmaxm with h | h
      · exact ⟨(k, v), List.mem_cons_self _ _, h.symm⟩
      · obtain ⟨kv, hkv, hv⟩ := List.mem_map.mp h
        exact ⟨kv, List.mem_cons_of_mem _ hkv, hv⟩
  · intro k v
    rfl

/-- C7: in `_read_all`'s decode loop the cursor advances monotonically and,
whenever a field's declared address exceeds the cursor, exactly
`address - cursor` registers are skipped, so under the catalog's ordered
non-overlapping layout (`chainOK`) with type widths matching the catalog
word lengths (`widthOK`) every field is decoded at the buffer position
`address - span_offset`; in particular the two-field batch `gapBatch`
(addresses 10 and 12, the middle register excluded from the descriptors)
decodes the last field from the third buffer register. -/
theorem c7_gap_skip :
    (∀ (values : List (String × FieldDesc)) (base : Nat) (P : List Nat)
        (results : List (String × PyValue)),
      chainOK values base = true →
      widthOK values = true →
      decode_loop values base ⟨P, 0⟩ = .ok results →
      List.Forall₂
        (fun kv rv => rv.1 = kv.1 ∧
          ∃ d', decode_value (some ⟨P, 2 * (kv.2.address - base)⟩) kv.2.length kv.2.dtype
              kv.2.vtype = .ok (rv.2, d'))
        values results) ∧
    decode_loop gapBatch 10 (fromRegisters [100, 200, 300]) =
      .ok [("A", .int 100), ("C", .int 300)] := by
  refine ⟨?_, by decide⟩
  intro values base P results hchain hwidth h
  have h0 : (2 : Nat) * (base - base) = 0 := by omega
  refine decode_loop_positions values base base P results (le_refl base) hchain hwidth ?_
  rw [h0]
  exact h

theorem c7_gap_skip_witness :
    chainOK gapBatch 10 = true ∧
    widthOK gapBatch = true ∧
    List.Forall₂
      (fun (kv : String × FieldDesc) (rv : String × PyValue) => rv.1 = kv.1 ∧
        ∃ d', decode_value (some ⟨[0, 100, 0, 200, 1, 44], 2 * (kv.2.address - 10)⟩)
            kv.2.length kv.2.dtype kv.2.vtype = .ok (rv.2, d'))
      gapBatch [("A", .int 100), ("C", .int 300)] :=
  ⟨by decide, by decide,
    c7_gap_skip.1 gapBatch 10 [0, 100, 0, 200, 1, 44] [("A", .int 100), ("C", .int 300)]
      (by decide) (by decide) (by decide)⟩

/-- C4 (amended): with a connected transport whose every response is
malformed (a non-response or a register-count mismatch), a single-field
`read(name)` of a `HOLDING` descriptor issues exactly `retries` transport
read attempts (observed through any attempt counter `γ` of the stub's
state), raises nothing, and returns `{name: False}` — the Python boolean,
which is falsy for every target type but is not the string target's
type-specific absent value `str(False)` (see the counterexample). -/
theorem c4_amended_retry_returns_false {σ ω : Type} (dev : Device σ ω) (γ : σ → Nat)
    (key : String) (v : FieldDesc) (s : σ)
    (hlook : lookupReg dev.registers key = some v)
    (hH : v.rtype = .HOLDING)
    (hconn : ∀ s, dev.transport.is_socket_open s = true)
    (hbad : ∀ s a l u, (dev.transport.read_holding s a l u).1.isResponse = false ∨
      (dev.transport.read_holding s a l u).1.registers.length ≠ l)
    (hγ : ∀ s a l u, γ (dev.transport.read_holding s a l u).2 = γ s + 1) :
    (dev.read key s).1 = .ok [(key, PyValue.bool false)] ∧
    γ (dev.read key s).2 = γ s + dev.retries := by
  rw [device_read_eq, hlook]
  dsimp only []
  rw [read_field_holding_eq dev.transport dev.unit dev.retries v s hH]
  obtain ⟨h1, h2⟩ :=
    read_holding_exhausts dev.transport γ dev.unit hconn hbad hγ dev.retries v.address v.length s
  cases hrs : read_holding_registers dev.transport dev.unit dev.retries v.address v.length s with
  | mk d s' =>
  rw [hrs] at h1 h2
  dsimp only [] at h1 h2 ⊢
  rw [h1]
  exact ⟨rfl, h2⟩

/-- C4 witness: the amended statement at the always-malformed counting
stub with the catalog's default `retries = 3`. -/
theorem c4_witness :
    (devString.read "s" 0).1 = .ok [("s", PyValue.bool false)] ∧
    id ((devString.read "s" 0).2) = id 0 + devString.retries :=
  c4_amended_retry_returns_false devString id "s" ⟨0, 4, .HOLDING, .STRING, .vstr, "", 1⟩ 0
    (by decide) rfl (fun _ => rfl) (fun _ _ _ _ => Or.inl rfl) (fun _ _ _ _ => rfl)

/-- C4 counterexample: for a `STRING` field the claim's "type-specific
absent value" is `str(False) = "False"`, but retry exhaustion returns the
boolean `False`, which Python `==` distinguishes from `"False"`. -/
theorem c4_counterexample_bool_not_string_absent :
    devString.read "s" 0 = (.ok [("s", PyValue.bool false)], 3) ∧
    vtypeOfFalse VType.vstr = .str "False" ∧
    pyEq (.bool false) (vtypeOfFalse VType.vstr) = false := by
  decide

/-- C8: an unknown field name makes both `read` and `write` raise
`KeyError` with the transport state untouched (no transport activity); a
catalogued non-`HOLDING` field makes `write` raise `NotImplementedError`;
otherwise `write` encodes the value and issues the transport write at the
descriptor's address, returning the transport's acknowledgement as-is. -/
theorem c8_lookup_and_write_paths {σ ω : Type} :
    (∀ (dev : Device σ ω) (key : String) (s : σ),
      lookupReg dev.registers key = none →
      dev.read key s = (.error (.keyError key), s)) ∧
    (∀ (dev : Device σ ω) (key : String) (data : PyValue) (s : σ),
      lookupReg dev.registers key = none →
      dev.write key data s = (.error (.keyError key), s)) ∧
    (∀ (dev : Device σ ω) (key : String) (v : FieldDesc) (data : PyValue) (s : σ),
      lookupReg dev.registers key = some v → v.rtype = .INPUT →
      dev.write key data s = (.error .notImplementedError, s)) ∧
    (∀ (dev : Device σ ω) (key : String) (v : FieldDesc) (data : PyValue) (regs : List Nat)
        (s : σ),
      lookupReg dev.registers key = some v → v.rtype = .HOLDING →
      encode_value data v.dtype = .ok regs →
      dev.write key data s =
        (.ok (dev.transport.write_registers s v.address regs dev.unit).1,
          (dev.transport.write_registers s v.address regs dev.unit).2)) := by
  refine ⟨?_, ?_, ?_, ?_⟩
  · intro dev key s h
    rw [device_read_eq, h]
  · intro dev key data s h
    rw [device_write_eq, h]
  · intro dev key v data s h hI
    rw [device_write_eq, h]
    exact write_field_input_eq dev.transport dev.unit v data s hI
  · intro dev key v data regs s h hH henc
    rw [device_write_eq, h]
    dsimp only []
    rw [write_field_holding_eq dev.transport dev.unit v data s hH, henc]

/-- C8 witness: each branch instantiated on concrete devices. -/
theorem c8_witness :
    devString.read "zzz" 0 = (.error (.keyError "zzz"), 0) ∧
    devString.write "zzz" (.int 5) 0 = (.error (.keyError "zzz"), 0) ∧
    devInput.write "a" (.int 5) 0 = (.error .notImplementedError, 0) ∧
    devString.write "s" (.str "hi") 0 =
      (.ok (devString.transport.write_registers 0 0 [0x6869] devString.unit).1,
        (devString.transport.write_registers 0 0 [0x6869] devString.unit).2) :=
  ⟨c8_lookup_and_write_paths.1 devString "zzz" 0 (by decide),
    c8_lookup_and_write_paths.2.1 devString "zzz" (.int 5) 0 (by decide),
    c8_lookup_and_write_paths.2.2.1 devInput "a" ⟨10, 1, .INPUT, .UINT16, .vint, "", 1⟩ (.int 5) 0
      (by decide) rfl,
    c8_lookup_and_write_paths.2.2.2 devString "s" ⟨0, 4, .HOLDING, .STRING, .vstr, "", 1⟩
      (.str "hi") [0x6869] 0 (by decide) rfl (by decide)⟩

/-- C9: `meters()` probes exactly the two fixed device-id registers
`0x9cfc` and `0x9daa` with single-field reads, and builds one `Meter` per
truthy probe, keyed `"Meter<n>"` by the probe's 1-based index, sharing the
parent's transport, retry budget and unit address, and bound to the known
register offset at the probe's ordinal position.  -/
theorem c9_meter_discovery {σ ω : Type} (inv : Device σ ω) (s : σ) (v1 v2 : PyValue)
    (s1 s2 : σ)
    (h1 : read_field inv.transport inv.unit inv.retries
      ⟨0x9cfc, 1, .HOLDING, .UINT16, .vint, "", 1⟩ s = (.ok v1, s1))
    (h2 : read_field inv.transport inv.unit inv.retries
      ⟨0x9daa, 1, .HOLDING, .UINT16, .vint, "", 1⟩ s1 = (.ok v2, s2)) :
    Inverter.meters inv s =
      (.ok ((if pyTruthy v1 then [("Meter1", mkMeter inv 0)] else []) ++
        (if pyTruthy v2 then [("Meter2", mkMeter inv 1)] else [])), s2) ∧
    Inverter.meter_dids =
      [⟨0x9cfc, 1, .HOLDING, .UINT16, .vint, "", 1⟩,
        ⟨0x9daa, 1, .HOLDING, .UINT16, .vint, "", 1⟩] ∧
    (mkMeter inv 0).transport = inv.transport ∧ (mkMeter inv 0).unit = inv.unit ∧
    (mkMeter inv 0).retries = inv.retries ∧ (mkMeter inv 0).offset = 0x000 ∧
    (mkMeter inv 0).model = "Meter1" ∧ (mkMeter inv 0).registers = [] ∧
    (mkMeter inv 1).transport = inv.transport ∧ (mkMeter inv 1).unit = inv.unit ∧
    (mkMeter inv 1).offset = 0x0AE ∧ (mkMeter inv 1).model = "Meter2" := by
  refine ⟨?_, rfl, rfl, rfl, rfl, rfl, rfl, rfl, rfl, rfl, rfl, rfl⟩
  rw [meters_eq]
  dsimp only []
  rw [h1]
  dsimp only []
  rw [h2]

/-- C9 witness: a truthy probe #1 and a sentinel probe #2 produce exactly
one `Meter`, bound to the first known offset. -/
theorem c9_witness :
    Inverter.meters invProbe 0 = (.ok [("Meter1", mkMeter invProbe 0)], 2) := by
  have h := (c9_meter_discovery invProbe 0 (.int 5) (.int 0) 1 2 (by decide) (by decide)).1
  simpa using h

/-- C10: for an `INPUT` descriptor the single-field `_read` returns the
boolean `False` whatever the transport does, because the call to the
non-existent `_read_input_registers` raises `AttributeError`, which `_read`
swallows; whereas `_read_all` catches only `NotImplementedError`, so the
same `AttributeError` propagates out of any `read_all` over a non-empty
`INPUT` batch. -/
theorem c10_input_register_paths {σ ω : Type} :
    (∀ (T : Transport σ ω) (unit retries : Nat) (v : FieldDesc) (s : σ),
      v.rtype = .INPUT →
      read_field T unit retries v s = (.ok (.bool false), s)) ∧
    (∀ (T : Transport σ ω) (unit retries : Nat) (values : List (String × FieldDesc)) (s : σ),
      read_all_batch T unit retries values .INPUT s = (.error .attributeError, s)) ∧
    (∀ (dev : Device σ ω) (s : σ),
      2 ≤ (dev.registers.filter (·.2.rtype == .INPUT)).length →
      ((dev.registers.filter (·.2.rtype == .INPUT)).filter (·.2.batch == 1)).isEmpty = false →
      dev.read_all .INPUT s = (.error .attributeError, s)) := by
  refine ⟨?_, ?_, ?_⟩
  · intro T unit retries v s hI
    exact read_field_input_eq T unit retries v s hI
  · intro T unit retries values s
    exact read_all_batch_input_eq T unit retries values s
  · intro dev s hlen hbatch
    rw [device_read_all_eq]
    obtain ⟨k, hk⟩ : ∃ k, (dev.registers.filter (·.2.rtype == .INPUT)).length - 1 = k + 1 :=
      ⟨(dev.registers.filter (·.2.rtype == .INPUT)).length - 2, by omega⟩
    rw [hk, List.range'_succ, read_all_loop_cons]
    rw [hbatch]
    simp only [Bool.false_eq_true, if_false, ite_false]
    rw [read_all_batch_input_eq]

/-- C10 witness: the three paths at a concrete two-field `INPUT`
catalog. -/
theorem c10_witness :
    read_field stubOnes 1 3 (⟨10, 1, .INPUT, .UINT16, .vint, "", 1⟩ : FieldDesc) (0 : Nat) =
      (.ok (.bool false), 0) ∧
    read_all_batch stubOnes 1 3 devInput.registers .INPUT (0 : Nat) =
      (.error .attributeError, 0) ∧
    devInput.read_all .INPUT 0 = (.error .attributeError, 0) :=
  ⟨c10_input_register_paths.1 stubOnes 1 3 _ 0 rfl,
    c10_input_register_paths.2.1 stubOnes 1 3 devInput.registers 0,
    c10_input_register_paths.2.2 devInput 0 (by decide) (by decide)⟩

/-- C3 (amended): `read_all(rtype)` walks candidate batch ids ascending
from 1 and stops at the first id with no member descriptors, but the walk
is also capped at `count(filtered descriptors) - 1`; hence with dense batch
ids `1..B` every batch is read and merged (in ascending order, via
`dict.update`) provided `B` does not exceed that cap, with the loop
stopping right after `B`; a batch whose transport read returns `None` after
retries contributes no entries and raises nothing; an empty catalog yields
an empty mapping.  The original claim's "every batch is read" fails when
every batch is a singleton, since then the last batch id equals the
descriptor count and is never visited (see the counterexample). -/
theorem c3_batch_iteration {σ ω : Type} :
    (∀ (dev : Device σ ω) (rtype : RegisterType) (s : σ),
      dev.registers.filter (·.2.rtype == rtype) = [] →
      dev.read_all rtype s = (.ok [], s)) ∧
    (∀ (dev : Device σ ω) (rtype : RegisterType) (s : σ) (B : Nat),
      (∀ b, 1 ≤ b → b ≤ B →
        ((dev.registers.filter (·.2.rtype == rtype)).filter (·.2.batch == b)).isEmpty = false) →
      B ≤ (dev.registers.filter (·.2.rtype == rtype)).length - 1 →
      (B = (dev.registers.filter (·.2.rtype == rtype)).length - 1 ∨
        ((dev.registers.filter (·.2.rtype == rtype)).filter (·.2.batch == B + 1)).isEmpty =
          true) →
      dev.read_all rtype s =
        read_all_merge_spec dev.transport dev.unit dev.retries
          (dev.registers.filter (·.2.rtype == rtype)) rtype (List.range' 1 B) [] s) ∧
    (∀ (T : Transport σ ω) (unit retries : Nat) (values : List (String × FieldDesc)) (s : σ),
      (read_holding_registers T unit retries ((spanFold values).1.getD 0)
        ((spanFold values).2.getD 0 - (spanFold values).1.getD 0) s).1 = none →
      read_all_batch T unit retries values .HOLDING s =
        (.ok [], (read_holding_registers T unit retries ((spanFold values).1.getD 0)
          ((spanFold values).2.getD 0 - (spanFold values).1.getD 0) s).2)) := by
  refine ⟨?_, ?_, ?_⟩
  · intro dev rtype s h
    rw [device_read_all_eq, h]
    simp only [List.length_nil, Nat.zero_sub, List.range'_zero, read_all_loop_nil]
  · intro dev rtype s B hdense hle hstop
    rw [device_read_all_eq]
    set regs := dev.registers.filter (·.2.rtype == rtype) with hregs
    have hsplit : List.range' 1 (regs.length - 1) =
        List.range' 1 B ++ List.range' (1 + B) (regs.length - 1 - B) := by
      have happ := List.range'_append 1 B (regs.length - 1 - B) 1
      rw [Nat.one_mul] at happ
      have h1 : regs.length - 1 = regs.length - 1 - B + B := by omega
      nth_rewrite 1 [h1]
      exact happ.symm
    rw [hsplit]
    have hmem : ∀ b ∈ List.range' 1 B, (regs.filter (·.2.batch == b)).isEmpty = false := by
      intro b hb
      rw [List.mem_range'_1] at hb
      exact hdense b hb.1 (by omega)
    rw [read_all_loop_append dev.transport dev.unit dev.retries regs rtype
      (List.range' 1 B) (List.range' (1 + B) (regs.length - 1 - B)) [] s hmem]
    cases hm : read_all_merge_spec dev.transport dev.unit dev.retries regs rtype
      (List.range' 1 B) [] s with
    | mk r s' =>
    cases r with
    | error e => rfl
    | ok acc' =>
      dsimp only []
      rcases hstop with hstop | hstop
      · have : regs.length - 1 - B = 0 := by omega
        rw [this, List.range'_zero, read_all_loop_nil]
      · rcases hn : regs.length - 1 - B with _ | k
        · rw [List.range'_zero, read_all_loop_nil]
        · rw [List.range'_succ]
          refine read_all_loop_break_head dev.transport dev.unit dev.retries regs rtype
            (1 + B) _ acc' s' ?_
          rw [show 1 + B = B + 1 from by omega]
          exact hstop
  · intro T unit retries values s hnone
    rw [read_all_batch_holding_eq]
    dsimp only []
    cases hrs : read_holding_registers T unit retries ((spanFold values).1.getD 0)
      ((spanFold values).2.getD 0 - (spanFold values).1.getD 0) s with
    | mk d s' =>
    rw [hrs] at hnone
    dsimp only [] at hnone ⊢
    rw [hnone]

/-- C3 counterexample: a catalog of two singleton batches with dense ids
1 and 2 over a transport that answers every read: `read_all` performs only
batch 1 (one transport read) and field `"b"` of batch 2 is missing from
the result, although the claim requires every batch to be read. -/
theorem c3_counterexample_last_singleton_batch_skipped :
    devTwoBatches.read_all .HOLDING 0 = (.ok [("a", PyValue.int 1)], 1) ∧
    devTwoBatches.registers.filter (·.2.batch == 2) =
      [("b", ⟨20, 1, .HOLDING, .UINT16, .vint, "", 2⟩)] ∧
    ([("a", PyValue.int 1)].find? (·.1 == "b")) = none := by
  decide

/-- C3 witness: the amended statement at an empty catalog, a two-field
single-batch catalog (`B = 1`), and a failing-transport batch. -/
theorem c3_witness :
    devEmpty.read_all .HOLDING 0 = (.ok [], 0) ∧
    devOneBatch.read_all .HOLDING 0 =
      read_all_merge_spec devOneBatch.transport devOneBatch.unit devOneBatch.retries
        (devOneBatch.registers.filter (·.2.rtype == .HOLDING)) .HOLDING
        (List.range' 1 1) [] 0 ∧
    read_all_batch stubMalformed 1 3 devString.registers .HOLDING 0 =
      (.ok [], (read_holding_registers stubMalformed 1 3
        ((spanFold devString.registers).1.getD 0)
        ((spanFold devString.registers).2.getD 0 -
          (spanFold devString.registers).1.getD 0) 0).2) :=
  ⟨c3_batch_iteration.1 devEmpty .HOLDING 0 rfl,
    c3_batch_iteration.2.1 devOneBatch .HOLDING 0 1
      (fun b h1 h2 => by
        have hb : b = 1 := by omega
        subst hb
        decide)
      (by decide) (Or.inl (by decide)),
    c3_batch_iteration.2.2 stubMalformed 1 3 devString.registers 0 (by decide)⟩
